import Mathlib

/-!
Verification of the RecordingsCatalog Worker-AI core.

This file gives a shallow embedding, over exact rational arithmetic, of the
claim-relevant parts of the worker service:

* `BotSort`   — `src/services/worker-ai/src/tracking/botsort.py`
                (`iou_xyxy`, `BoTSORTTracker.update` / `reset`);
* `Session`   — `src/services/worker-ai/src/session/manager.py`
                (`SessionWriter.write_frame` time base and segment indexing);
* `Yolo11`    — `src/services/worker-ai/src/inference/yolo11.py`
                (`postprocess`, `postprocess_with_nms`, `nms`);
* `FrameDec`  — `src/services/worker-ai/src/pipeline/frame_decoder.py`
                (decoder registry and dispatch);
* `ProtoV1`   — `src/services/worker-ai/src/protocol/handler.py`
                (`read_envelope`) together with the read loop of
                `worker_new.py`;
* `WorkerV1`  — the v1 protocol connection handler of
                `src/services/worker-ai/worker.py` (window/backpressure
                state machine), as a step function on connection state.

Python floats are modelled as `ℚ`; machine integers as `ℕ`/`ℤ` (no overflow
is relevant here); fallible operations return `Option`.  Calls into numpy,
OpenCV or onnxruntime whose numeric results the properties do not depend on
are taken as parameters (environment inputs) and are documented at each site.

The file is organised as definitions first, then all theorems.
-/

/-- Quadruple of rationals used for bounding boxes `(x1, y1, x2, y2)`
(or `(cx, cy, w, h)` where noted). -/
abbrev Quad : Type := ℚ × ℚ × ℚ × ℚ

namespace Yolo11

/-- COCO class catalog of yolo11.py (`COCO_CLASSES`, 80 names). -/
def COCO_CLASSES : List String :=
  ["person", "bicycle", "car", "motorcycle", "airplane", "bus", "train",
   "truck", "boat", "traffic light", "fire hydrant", "stop sign",
   "parking meter", "bench", "bird", "cat", "dog", "horse", "sheep", "cow",
   "elephant", "bear", "zebra", "giraffe", "backpack", "umbrella", "handbag",
   "tie", "suitcase", "frisbee", "skis", "snowboard", "sports ball", "kite",
   "baseball bat", "baseball glove", "skateboard", "surfboard",
   "tennis racket", "bottle", "wine glass", "cup", "fork", "knife", "spoon",
   "bowl", "banana", "apple", "sandwich", "orange", "broccoli", "carrot",
   "hot dog", "pizza", "donut", "cake", "chair", "couch", "potted plant",
   "bed", "dining table", "toilet", "tv", "laptop", "mouse", "remote",
   "keyboard", "cell phone", "microwave", "oven", "toaster", "sink",
   "refrigerator", "book", "clock", "vase", "scissors", "teddy bear",
   "hair drier", "toothbrush"]

/-- Class-name lookup used by both postprocess paths
(`COCO_CLASSES[class_id] if class_id < len(COCO_CLASSES) else
"class_" + str(class_id)`); Python's negative indexing wraps indices in
`[-80, 0)` (indices below `-80` raise, which a total embedding cannot
express; no theorem below evaluates the function there). -/
def cocoName (cid : ℤ) : String :=
  if cid < 80 then
    if 0 ≤ cid then COCO_CLASSES.getD cid.toNat ""
    else COCO_CLASSES.getD (cid + 80).toNat ""
  else "class_" ++ toString cid

/-- The `Detection` dataclass of yolo11.py: integer class id, class name,
confidence, and normalized xyxy `bbox`. -/
structure Detection where
  class_id : ℤ
  class_name : String
  confidence : ℚ
  bbox : Quad
deriving DecidableEq, Repr

/-- Well-formedness of a returned bbox per the specification:
`0 ≤ x1 < x2 ≤ 1` and `0 ≤ y1 < y2 ≤ 1`. -/
def detBboxOk (d : Detection) : Prop :=
  0 ≤ d.bbox.1 ∧ d.bbox.1 < d.bbox.2.2.1 ∧ d.bbox.2.2.1 ≤ 1 ∧
  0 ≤ d.bbox.2.1 ∧ d.bbox.2.1 < d.bbox.2.2.2 ∧ d.bbox.2.2.2 ≤ 1

instance (d : Detection) : Decidable (detBboxOk d) :=
  inferInstanceAs (Decidable (_ ∧ _ ∧ _ ∧ _ ∧ _ ∧ _))

/-- Python `int()` on a float value: truncation toward zero. -/
def intTrunc (q : ℚ) : ℤ := if 0 ≤ q then ⌊q⌋ else ⌈q⌉

/-- np.clip of a single value to `[lo, hi]`. -/
def clipQ (v lo hi : ℚ) : ℚ := max lo (min v hi)

/-- Accumulator loop of `np.argmax`: index of the first strictly greatest
element seen so far. -/
def argmaxAux (best : ℚ) (bestIdx i : ℕ) : List ℚ → ℕ
  | [] => bestIdx
  | v :: rest =>
    if best < v then argmaxAux v i (i + 1) rest
    else argmaxAux best bestIdx (i + 1) rest

/-- `np.argmax` over a 1-D array: index of the first maximal element
(`np.argmax` raises on an empty array; the embedding returns `0` there,
and no caller reaches that case with the guards of the source). -/
def argmaxIdx : List ℚ → ℕ
  | [] => 0
  | v :: rest => argmaxAux v 0 1 rest

/-- One prediction column of the model output, already oriented row-wise:
its `xywh` box (letterbox space), its per-class scores, and the optional
objectness score (present exactly when the model has `4 + 1 + C`
channels). -/
structure PredRow where
  xywh : Quad
  scores : List ℚ
  obj : Option ℚ
deriving DecidableEq, Repr

/-- Matrix-level test `class_scores.max() > 1.0 or class_scores.min() < 0.0`
(false on an empty matrix, matching the `class_scores.size and …`
short-circuit of yolo11.py line 337). -/
def needSquashScores (rows : List PredRow) : Bool :=
  rows.any (fun r => r.scores.any (fun v => decide (1 < v) || decide (v < 0)))

/-- Same test for the objectness column. -/
def needSquashObj (rows : List PredRow) : Bool :=
  rows.any (fun r =>
    match r.obj with
    | some o => decide (1 < o) || decide (o < 0)
    | none => false)

/-- Sigmoid normalization step of `postprocess` (yolo11.py lines 335-344):
when the class scores (resp. objectness) do not look like probabilities,
map them through the sigmoid.  The real sigmoid `1/(1+exp(−x))` is not a
rational function, so the squashing map is a parameter `sig`; every theorem
below holds for all `sig`, and all concrete evaluations use scores inside
`[0, 1]`, where the source skips this step entirely. -/
def applySquash (sig : ℚ → ℚ) (rows : List PredRow) : List PredRow :=
  let squashS := needSquashScores rows
  let squashO := needSquashObj rows
  rows.map (fun r =>
    { r with
      scores := if squashS then r.scores.map sig else r.scores
      obj := if squashO then r.obj.map sig else r.obj })

/-- Number of model classes, `class_scores.shape[1]` (yolo11.py line 348);
the embedding reads it off the first row (all rows of a matrix have the
same length). -/
def numClasses (rows : List PredRow) : ℕ :=
  match rows with
  | [] => 0
  | r :: _ => r.scores.length

/-- Class selection for one prediction row (yolo11.py lines 350-389):
with a sanitized non-empty `allowed` set, take the best class inside it
(`argmax` over the gathered columns, mapped back through `allowed`);
otherwise take the global `argmax`. -/
def selectClass (allowed : Option (List ℤ)) (r : PredRow) : ℤ × ℚ :=
  match allowed with
  | some al =>
    let sa := al.map (fun c => r.scores.getD c.toNat 0)
    let li := argmaxIdx sa
    (al.getD li 0, sa.getD li 0)
  | none =>
    let ci := argmaxIdx r.scores
    ((ci : ℤ), r.scores.getD ci 0)

/-- Candidate detection after class selection: xyxy box in original-image
space, effective confidence, selected class. -/
structure Cand where
  xyxy : Quad
  conf : ℚ
  cls : ℤ
deriving DecidableEq, Repr

/-- Coordinate transformation of `postprocess` (yolo11.py lines 403-425):
`xywh → xyxy` in letterbox space, subtract the padding, divide by the
scale, and clip to the original image rectangle. -/
def toOrig (xywh : Quad) (pad : ℚ × ℚ) (scale orig_w orig_h : ℚ) : Quad :=
  let x1 := xywh.1 - xywh.2.2.1 / 2
  let y1 := xywh.2.1 - xywh.2.2.2 / 2
  let x2 := xywh.1 + xywh.2.2.1 / 2
  let y2 := xywh.2.1 + xywh.2.2.2 / 2
  (clipQ ((x1 - pad.1) / scale) 0 orig_w,
   clipQ ((y1 - pad.2) / scale) 0 orig_h,
   clipQ ((x2 - pad.1) / scale) 0 orig_w,
   clipQ ((y2 - pad.2) / scale) 0 orig_h)

/-- Pairwise IoU of `YOLO11Model.nms` (yolo11.py lines 488-510): areas are
the raw `(x2−x1)·(y2−y1)` products (not clamped), the intersection sides
are clamped at `0`, and the denominator carries no epsilon (a zero
denominator, `nan` in numpy, divides to `0` in `ℚ`; it can only arise from
degenerate boxes, which `postprocess` has already discarded). -/
def nmsIou (a b : Quad) : ℚ :=
  let areaA := (a.2.2.1 - a.1) * (a.2.2.2 - a.2.1)
  let areaB := (b.2.2.1 - b.1) * (b.2.2.2 - b.2.1)
  let iw := max 0 (min a.2.2.1 b.2.2.1 - max a.1 b.1)
  let ih := max 0 (min a.2.2.2 b.2.2.2 - max a.2.1 b.2.1)
  let inter := iw * ih
  inter / (areaA + areaB - inter)

/-- Descending-score order used to sort candidates
(`scores.argsort()[::-1]`). -/
def scoreGe (a b : Quad × ℚ) : Prop := b.2 ≤ a.2

instance : DecidableRel scoreGe := fun a b =>
  inferInstanceAs (Decidable (b.2 ≤ a.2))

/-- Greedy suppression loop of `YOLO11Model.nms` (yolo11.py lines 496-513)
on a score-sorted list: keep the head, drop every later box whose IoU with
it exceeds the threshold, recurse.  The `while order.size > 0` loop is
expressed with a fuel argument (the list length bounds the iteration
count), keeping the definition structurally recursive and computable. -/
def nmsRun (iou_threshold : ℚ) : ℕ → List (Quad × ℚ) → List (Quad × ℚ)
  | 0, _ => []
  | _, [] => []
  | fuel + 1, p :: rest =>
    p :: nmsRun iou_threshold fuel
      (rest.filter (fun q => decide (nmsIou p.1 q.1 ≤ iou_threshold)))

/-- Embedding of `YOLO11Model.nms` (yolo11.py lines 483-515): sort the
(box, score) pairs by descending score, then run the greedy suppression
loop; the kept pairs are returned in that order (the source returns their
indices).  numpy's default `argsort` is unstable, so the relative order of
equal scores is unspecified in the source; the embedding fixes the
insertion-sort order. -/
def nms (iou_threshold : ℚ) (l : List (Quad × ℚ)) : List (Quad × ℚ) :=
  let sorted := List.insertionSort scoreGe l
  nmsRun iou_threshold sorted.length sorted

/-- `np.unique`: the sorted list of distinct values. -/
def uniqueSorted (l : List ℤ) : List ℤ :=
  (List.insertionSort (· ≤ ·) l).dedup

/-- Filter sanitization of `postprocess` (yolo11.py lines 351-367): a
present, non-empty `classes_filter` is restricted to ids in
`[0, num_classes)`; when nothing remains (or no filter was given) the
result is `none`, which makes the selection fall back to the global
argmax. -/
def effectiveFilter (classes_filter : Option (List ℤ)) (nc : ℕ) :
    Option (List ℤ) :=
  match classes_filter with
  | some l =>
    if l.length ≠ 0 then
      let al := l.filter (fun c => decide (0 ≤ c) && decide (c < (nc : ℤ)))
      if al.isEmpty then none else some al
    else none
  | none => none

/-- Per-row class selection and effective confidence of `postprocess`
(yolo11.py lines 368-391): the chosen class with its score, multiplied by
the objectness when the model has one. -/
def buildCands (allowed : Option (List ℤ)) (rows : List PredRow) :
    List (Quad × ℤ × ℚ) :=
  rows.map (fun r =>
    let sel := selectClass allowed r
    let conf := match r.obj with
      | some o => sel.2 * o
      | none => sel.2
    (r.xywh, sel.1, conf))

/-- Coordinate stage of `postprocess` (yolo11.py lines 403-425) applied to
each surviving candidate. -/
def geomCands (pad : ℚ × ℚ) (scale orig_w orig_h : ℚ)
    (picked : List (Quad × ℤ × ℚ)) : List Cand :=
  picked.map (fun c =>
    { xyxy := toOrig c.1 pad scale orig_w orig_h, conf := c.2.2, cls := c.2.1 })

/-- Degenerate-box removal of `postprocess` (yolo11.py lines 427-434). -/
def validCands (boxed : List Cand) : List Cand :=
  boxed.filter (fun c =>
    decide (c.xyxy.1 < c.xyxy.2.2.1) && decide (c.xyxy.2.1 < c.xyxy.2.2.2))

/-- Per-class NMS of `postprocess` (yolo11.py lines 436-453): group by
class (`np.unique` is sorted), run `nms` inside each group, and collect
the kept candidates. -/
def perClassNms (nms_iou : ℚ) (valid : List Cand) : List Cand :=
  (uniqueSorted (valid.map (fun c => c.cls))).flatMap (fun cid =>
    let sub := valid.filter (fun c => decide (c.cls = cid))
    (nms nms_iou (sub.map (fun c => (c.xyxy, c.conf)))).map
      (fun p => ({ xyxy := p.1, conf := p.2, cls := cid } : Cand)))

/-- Final normalization and `Detection` construction of `postprocess`
(yolo11.py lines 455-481). -/
def finalizeDets (orig_w orig_h : ℚ) (kept : List Cand) : List Detection :=
  kept.map (fun c =>
    { class_id := c.cls
      class_name := cocoName c.cls
      confidence := c.conf
      bbox := (clipQ (c.xyxy.1 / orig_w) 0 1, clipQ (c.xyxy.2.1 / orig_h) 0 1,
               clipQ (c.xyxy.2.2.1 / orig_w) 0 1,
               clipQ (c.xyxy.2.2.2 / orig_h) 0 1) })

/-- Embedding of `YOLO11Model.postprocess` (yolo11.py lines 284-481) for a
model output already oriented as prediction rows (the claims cite the
selection and geometry stages, lines 351-481; the `(1, C, N)` vs
`(1, N, C)` orientation step only transposes the matrix).  Stages, in
source order: sigmoid normalization (see `applySquash`), filter
sanitization with global-argmax fallback when no filter entry is in range
(`effectiveFilter`), per-row class selection and confidence
(`buildCands`), confidence threshold, coordinate transformation
(`geomCands`), removal of degenerate boxes (`validCands`), per-class NMS
(`perClassNms`), and final normalization of the kept boxes to `[0, 1]`
(`finalizeDets`). -/
def postprocess (sig : ℚ → ℚ) (rows : List PredRow) (scale : ℚ)
    (pad : ℚ × ℚ) (orig_shape : ℕ × ℕ) (conf_thres nms_iou : ℚ)
    (classes_filter : Option (List ℤ)) : List Detection :=
  let orig_h : ℚ := (orig_shape.1 : ℚ)
  let orig_w : ℚ := (orig_shape.2 : ℚ)
  let rows := applySquash sig rows
  let allowed := effectiveFilter classes_filter (numClasses rows)
  let picked := (buildCands allowed rows).filter
    (fun c => decide (conf_thres ≤ c.2.2))
  let valid := validCands (geomCands pad scale orig_w orig_h picked)
  finalizeDets orig_w orig_h (perClassNms nms_iou valid)

/-- One row of an embedded-NMS model output: `[x1, y1, x2, y2, conf, cls]`
in letterbox pixel coordinates. -/
structure NmsRow where
  x1 : ℚ
  y1 : ℚ
  x2 : ℚ
  y2 : ℚ
  conf : ℚ
  cls : ℚ
deriving DecidableEq, Repr

/-- Class-filter test of `postprocess_with_nms` (yolo11.py lines 238-241):
a detection is dropped when a present, non-empty filter does not contain
its class id. -/
def filterDrops (classes_filter : Option (List ℤ)) (class_id : ℤ) : Bool :=
  match classes_filter with
  | some l => if l.length ≠ 0 then decide (class_id ∉ l) else false
  | none => false

/-- Embedding of `YOLO11Model.postprocess_with_nms` (yolo11.py lines
194-282): per detection row, drop below-threshold confidences, truncate the
class column to an integer, apply the class filter when one is present and
non-empty (`filterDrops`), undo letterbox padding and scale, clip to the
original image, drop degenerate boxes, and normalize to `[0, 1]`. -/
def postprocessWithNms (rows : List NmsRow) (scale : ℚ) (pad : ℚ × ℚ)
    (orig_shape : ℕ × ℕ) (conf_thres : ℚ)
    (classes_filter : Option (List ℤ)) : List Detection :=
  let orig_h : ℚ := (orig_shape.1 : ℚ)
  let orig_w : ℚ := (orig_shape.2 : ℚ)
  rows.filterMap (fun d =>
    if d.conf < conf_thres then none
    else
      let class_id := intTrunc d.cls
      if filterDrops classes_filter class_id then none
      else
        let x1 := clipQ ((d.x1 - pad.1) / scale) 0 orig_w
        let y1 := clipQ ((d.y1 - pad.2) / scale) 0 orig_h
        let x2 := clipQ ((d.x2 - pad.1) / scale) 0 orig_w
        let y2 := clipQ ((d.y2 - pad.2) / scale) 0 orig_h
        if x2 ≤ x1 ∨ y2 ≤ y1 then none
        else
          some { class_id := class_id
                 class_name := cocoName class_id
                 confidence := d.conf
                 bbox := (x1 / orig_w, y1 / orig_h, x2 / orig_w, y2 / orig_h) })

end Yolo11

namespace BotSort

/-- Embedding of `iou_xyxy` (botsort.py lines 14-34): intersection over union
of two xyxy boxes, with both side lengths of the intersection and both areas
clamped at `0`, and the union inflated by `1e-6`. -/
def iou_xyxy (a b : Quad) : ℚ :=
  let ax1 := a.1; let ay1 := a.2.1; let ax2 := a.2.2.1; let ay2 := a.2.2.2
  let bx1 := b.1; let by1 := b.2.1; let bx2 := b.2.2.1; let by2 := b.2.2.2
  let inter_x1 := max ax1 bx1
  let inter_y1 := max ay1 by1
  let inter_x2 := min ax2 bx2
  let inter_y2 := min ay2 by2
  let iw := max 0 (inter_x2 - inter_x1)
  let ih := max 0 (inter_y2 - inter_y1)
  let inter := iw * ih
  let area_a := max 0 (ax2 - ax1) * max 0 (ay2 - ay1)
  let area_b := max 0 (bx2 - bx1) * max 0 (by2 - by1)
  let union := area_a + area_b - inter + 1 / 1000000
  inter / union

/-- Detections consumed by the tracker are the `Detection` dataclass that
botsort.py imports from yolo11.py. -/
abbrev Det : Type := Yolo11.Detection

/-- Track state strings used by botsort.py (the code only ever assigns
`tentative` and `confirmed`; `deleted` is declared but never set). -/
inductive TrackState where
  | tentative
  | confirmed
  | deleted
deriving DecidableEq, Repr

/-- The `Track` dataclass of botsort.py, in the `use_kalman = False`
configuration of the tracker (so the `kf`, `bbox_pred` and `velocity`
fields stay `None` and are omitted; `bbox_pred = None` makes the matching
always compare against the raw `bbox`).  Track-id allocation, which the
claims are about, is the same code path in both configurations. -/
structure Track where
  track_id : ℕ
  class_id : ℤ
  class_name : String
  confidence : ℚ
  bbox : Quad
  last_seen_frame : ℕ
  bbox_smooth : Option Quad
  age : ℕ
  hits : ℕ
  hit_streak : ℕ
  time_since_update : ℕ
  state : TrackState
deriving DecidableEq, Repr

/-- Mutable state of `BoTSORTTracker`: configuration fields plus
`next_id`, `tracks`, `frame_idx` (botsort.py lines 80-105). -/
structure TrackerState where
  match_thresh : ℚ
  max_age : ℕ
  min_hits : ℕ
  next_id : ℕ
  tracks : List Track
  frame_idx : ℕ
deriving DecidableEq, Repr

/-- Constructor state of `BoTSORTTracker` (defaults `match_thresh = 0.3`,
`max_age = 30`, `min_hits = 3`, `next_id = 1`, no tracks, `frame_idx = 0`);
the YAML overrides are parameters. -/
def TrackerState.init (match_thresh : ℚ) (max_age min_hits : ℕ) :
    TrackerState :=
  { match_thresh := match_thresh
    max_age := max_age
    min_hits := min_hits
    next_id := 1
    tracks := []
    frame_idx := 0 }

/-- Embedding of `BoTSORTTracker.reset` (botsort.py lines 243-248): clear
tracks, reset `frame_idx` and `next_id` to their initial values. -/
def TrackerState.reset (s : TrackerState) : TrackerState :=
  { s with tracks := [], frame_idx := 0, next_id := 1 }

/-- Best-match search of the association loop (botsort.py lines 146-165):
scan the current tracks in order, skipping other classes and already
matched ids, and keep the index of the strictly best IoU found so far
(`best_iou` starts at `0`, `best_track_idx` at `-1`, modelled as
`none`). -/
def bestMatch (tracks : List Track) (matched : List ℕ) (det : Det) :
    ℚ × Option ℕ :=
  (List.range tracks.length).foldl
    (fun acc idx =>
      match tracks[idx]? with
      | none => acc
      | some t =>
        if t.class_id ≠ det.class_id then acc
        else if t.track_id ∈ matched then acc
        else
          let iou := iou_xyxy t.bbox det.bbox
          if acc.1 < iou then (iou, some idx) else acc)
    (0, none)

/-- Update of a matched track in the non-Kalman branch (botsort.py lines
187-199): overwrite `bbox_smooth` with the detection bbox, bump `hits` and
`hit_streak`, zero `time_since_update`, promote once `hits ≥ min_hits`, and
refresh `bbox`, `confidence` and `last_seen_frame`. -/
def updateMatched (min_hits frame_idx : ℕ) (t : Track) (det : Det) : Track :=
  let t := { t with
    bbox_smooth := some det.bbox
    hits := t.hits + 1
    hit_streak := t.hit_streak + 1
    time_since_update := 0 }
  let t := if min_hits ≤ t.hits then { t with state := .confirmed } else t
  { t with
    bbox := det.bbox
    confidence := det.confidence
    last_seen_frame := frame_idx }

/-- Spawned track for an unmatched detection (botsort.py lines 204-228,
non-Kalman branch): fresh `next_id`, `tentative`, `hits = hit_streak = 1`,
`bbox_smooth` set to the detection bbox. -/
def spawnTrack (next_id frame_idx : ℕ) (det : Det) : Track :=
  { track_id := next_id
    class_id := det.class_id
    class_name := det.class_name
    confidence := det.confidence
    bbox := det.bbox
    last_seen_frame := frame_idx
    bbox_smooth := some det.bbox
    age := 0
    hits := 1
    hit_streak := 1
    time_since_update := 0
    state := .tentative }

/-- Accumulator of the association loop: the (in-place mutated) `self.tracks`
list, the set of matched track ids, the `updated_tracks` list under
construction, and the running `next_id`. -/
structure AssocAcc where
  tracks : List Track
  matched : List ℕ
  updated : List Track
  next_id : ℕ
deriving DecidableEq, Repr

/-- One iteration of the association loop over detections (botsort.py lines
146-228): find the best same-class unmatched track; on a match
(`best_iou ≥ match_thresh`) update it in place and record it, otherwise
spawn a new track with the next id. -/
def assocStep (match_thresh : ℚ) (min_hits frame_idx : ℕ)
    (acc : AssocAcc) (det : Det) : AssocAcc :=
  let best := bestMatch acc.tracks acc.matched det
  match best.2 with
  | some idx =>
    if match_thresh ≤ best.1 then
      match acc.tracks[idx]? with
      | some t =>
        let t' := updateMatched min_hits frame_idx t det
        { acc with
          tracks := acc.tracks.set idx t'
          matched := acc.matched ++ [t'.track_id]
          updated := acc.updated ++ [t'] }
      | none => acc
    else
      { acc with
        updated := acc.updated ++ [spawnTrack acc.next_id frame_idx det]
        next_id := acc.next_id + 1 }
  | none =>
    { acc with
      updated := acc.updated ++ [spawnTrack acc.next_id frame_idx det]
      next_id := acc.next_id + 1 }

/-- Phase-3 aging of an unmatched but still-alive track (botsort.py lines
230-238): zero `hit_streak` and demote to `tentative` when
`time_since_update > max_age // 3`. -/
def ageTrack (max_age : ℕ) (t : Track) : Track :=
  let t := { t with hit_streak := 0 }
  if max_age / 3 < t.time_since_update then { t with state := .tentative } else t

/-- Embedding of `BoTSORTTracker.update` (botsort.py lines 107-241) in the
`use_kalman = False` configuration (phase 1 is a no-op because no track has
a Kalman filter).  Returns the new state; the returned track list is
`(update s dets).tracks`. -/
def TrackerState.update (s : TrackerState) (dets : List Det) : TrackerState :=
  let frame_idx := s.frame_idx + 1
  if dets.isEmpty then
    let alive := s.tracks.filter (fun t => frame_idx - t.last_seen_frame ≤ s.max_age)
    let aged := alive.map (ageTrack s.max_age)
    { s with frame_idx := frame_idx, tracks := aged }
  else
    let acc := dets.foldl (assocStep s.match_thresh s.min_hits frame_idx)
      { tracks := s.tracks, matched := [], updated := [], next_id := s.next_id }
    let leftovers := (acc.tracks.filter
        (fun t => t.track_id ∉ acc.matched ∧
          frame_idx - t.last_seen_frame ≤ s.max_age)).map (ageTrack s.max_age)
    { s with
      frame_idx := frame_idx
      next_id := acc.next_id
      tracks := acc.updated ++ leftovers }

/-- Track ids allocated (spawned) by one `update` call: the fresh ids handed
out are exactly `next_id, next_id+1, …` up to the new `next_id`. -/
def allocatedIds (s : TrackerState) (dets : List Det) : List ℕ :=
  List.range' s.next_id ((s.update dets).next_id - s.next_id)

/-- Track ids allocated over a run of `update` calls starting from `s`. -/
def allocRun (s : TrackerState) : List (List Det) → List ℕ
  | [] => []
  | dets :: rest => allocatedIds s dets ++ allocRun (s.update dets) rest

/-- Final tracker state after a run of `update` calls. -/
def TrackerState.runUpdates (s : TrackerState) :
    List (List Det) → TrackerState
  | [] => s
  | dets :: rest => (s.update dets).runUpdates rest

end BotSort

namespace Session

/-- Round-half-to-even on rationals (the semantics of Python's built-in
`round` at exact ties). -/
def roundHalfEven (q : ℚ) : ℤ :=
  let n := ⌊q⌋
  let f := q - n
  if f < 1 / 2 then n
  else if 1 / 2 < f then n + 1
  else if Even n then n else n + 1

/-- Python `round(x, 3)` on the exact rational value: round `x·1000` half to
even and divide back. -/
def round3 (q : ℚ) : ℚ := (roundHalfEven (q * 1000) : ℚ) / 1000

/-- Time-base state of a `SessionWriter` (manager.py lines 63-108); only the
fields that feed the `write_frame` timing and segment computation are kept
(file handles, counters and metadata strings are orthogonal to the claim). -/
structure WriterState where
  fps : ℚ
  segment_duration_s : ℚ
  session_start_mono_ns : Option ℤ
  session_start_utc_ns : Option ℤ
  latest_mono_ns : Option ℤ
  latest_utc_ns : Option ℤ
  frame_count : ℕ
deriving DecidableEq, Repr

/-- Constructor clamps of `SessionWriter.__init__` (manager.py lines 71-72):
`fps = max(fps, 0.0001)`, `segment_duration_s = max(segment_duration_s, 0.1)`;
all timestamps start unset. -/
def WriterState.init (fps segment_duration_s : ℚ) : WriterState :=
  { fps := max fps (1 / 10000)
    segment_duration_s := max segment_duration_s (1 / 10)
    session_start_mono_ns := none
    session_start_utc_ns := none
    latest_mono_ns := none
    latest_utc_ns := none
    frame_count := 0 }

/-- Epoch capture of `write_frame` (manager.py lines 139-149): the first
`ts_mono_ns` / `ts_utc_ns` seen become the session epochs, and the latest
values are remembered. -/
def captureEpochs (s : WriterState) (ts_mono_ns ts_utc_ns : Option ℤ) :
    WriterState :=
  let s := match ts_mono_ns, s.session_start_mono_ns with
    | some m, none => { s with session_start_mono_ns := some m }
    | _, _ => s
  let s := match ts_utc_ns, s.session_start_utc_ns with
    | some u, none => { s with session_start_utc_ns := some u }
    | _, _ => s
  let s := match ts_mono_ns with
    | some m => { s with latest_mono_ns := some m }
    | none => s
  match ts_utc_ns with
  | some u => { s with latest_utc_ns := some u }
  | none => s

/-- Relative timestamp of a write (manager.py lines 151-170), computed on the
state after epoch capture: prefer `(ts_mono − epoch_mono)/1e9`, else UTC,
else fall back to `frame_idx / fps` (when `fps > 0`, else `0`), and clamp
negative values to `0`. -/
def tRel (s : WriterState) (frame_idx : ℕ) (ts_mono_ns ts_utc_ns : Option ℤ) :
    ℚ :=
  let raw : ℚ :=
    match ts_mono_ns, s.session_start_mono_ns with
    | some m, some e => ((m : ℚ) - (e : ℚ)) / 1000000000
    | _, _ =>
      match ts_utc_ns, s.session_start_utc_ns with
      | some u, some e => ((u : ℚ) - (e : ℚ)) / 1000000000
      | _, _ => if 0 < s.fps then (frame_idx : ℚ) / s.fps else 0
  if raw < 0 then 0 else raw

/-- Segment index of a write (manager.py line 172):
`int(t_rel_s // segment_duration_s)`, i.e. the floor of the quotient for the
non-negative clamped `t_rel_s`. -/
def segmentIndex (t_rel_s D : ℚ) : ℤ := ⌊t_rel_s / D⌋

/-- Record appended to `tracks/seg-NNNN.jsonl`, restricted to the fields the
claim is about: the segment index `NNNN` the record goes to, the `t_rel_s`
value written on the line (rounded to 3 decimals, manager.py line 248) and
the frame id. -/
structure Event where
  seg : ℤ
  t_rel_s : ℚ
  frame : ℕ
deriving DecidableEq, Repr

/-- Embedding of `SessionWriter.write_frame` (manager.py lines 117-264),
restricted to its timing/segment behaviour: no record is written when
`tracks` is empty; otherwise epochs are captured, the relative time and
segment index are computed and the record (with the rounded `t_rel_s`) is
appended to segment `NNNN`.  The `objs` payload, file I/O and the
index/meta rewrites do not affect which segment receives which `t_rel_s`
and are not modelled. -/
def writeFrame (s : WriterState) (tracks : List BotSort.Track)
    (frame_idx : ℕ) (ts_mono_ns ts_utc_ns : Option ℤ) :
    WriterState × Option Event :=
  if tracks.isEmpty then (s, none)
  else
    let s := captureEpochs s ts_mono_ns ts_utc_ns
    let t := tRel s frame_idx ts_mono_ns ts_utc_ns
    let seg := segmentIndex t s.segment_duration_s
    ({ s with frame_count := s.frame_count + 1 },
     some { seg := seg, t_rel_s := round3 t, frame := frame_idx })

end Session

namespace FrameDec

/-- Wire pixel formats (`pb.PF_NV12`, `pb.PF_I420`, `pb.PF_RGB8`); proto3
also transports unknown enum numbers, kept as `PF_OTHER`. -/
inductive PixelFormat where
  | PF_NV12
  | PF_I420
  | PF_RGB8
  | PF_OTHER (n : ℕ)
deriving DecidableEq, Repr

/-- Wire codecs (`pb.CODEC_NONE`, `pb.CODEC_JPEG`), plus unknown enum
numbers. -/
inductive Codec where
  | CODEC_NONE
  | CODEC_JPEG
  | CODEC_OTHER (n : ℕ)
deriving DecidableEq, Repr

/-- Decoded image buffer; only its shape matters to the claims (the decoders
return `HxWx3` BGR arrays). -/
structure Img where
  height : ℕ
  width : ℕ
deriving DecidableEq, Repr

/-- Abstract interface to the OpenCV calls the decoders make; each returns
`none` exactly when the corresponding cv2 call fails or raises (the source
catches every exception and returns `None`). -/
structure Cv2 where
  imdecodeJpeg : List ℕ → Option Img
  cvtColorNV12 : List ℕ → ℕ → ℕ → Option Img
  cvtColorI420 : List ℕ → ℕ → ℕ → Option Img

/-- `FrameDecoder._decode_jpeg` (frame_decoder.py lines 103-118):
`cv2.imdecode`, `None` on failure. -/
def decodeJpeg (cv : Cv2) (data : List ℕ) (_w _h : ℕ) : Option Img :=
  cv.imdecodeJpeg data

/-- `FrameDecoder._decode_nv12` (frame_decoder.py lines 120-141): size
check `len(data) ≥ w·h + w·h/2`, then reshape of the sliced buffer to
`(h·3/2, w)` (raises, hence `None`, when the element counts disagree, e.g.
for odd heights) and `cv2.cvtColor`. -/
def decodeNv12 (cv : Cv2) (data : List ℕ) (w h : ℕ) : Option Img :=
  let y_size := w * h
  let uv_size := w * h / 2
  if data.length < y_size + uv_size then none
  else if y_size + uv_size ≠ h * 3 / 2 * w then none
  else cv.cvtColorNV12 (data.take (y_size + uv_size)) w h

/-- `FrameDecoder._decode_i420` (frame_decoder.py lines 143-163), analogous
to NV12 with two quarter-size chroma planes. -/
def decodeI420 (cv : Cv2) (data : List ℕ) (w h : ℕ) : Option Img :=
  let y_size := w * h
  let u_size := w * h / 4
  let v_size := w * h / 4
  if data.length < y_size + u_size + v_size then none
  else if y_size + u_size + v_size ≠ h * 3 / 2 * w then none
  else cv.cvtColorI420 (data.take (y_size + u_size + v_size)) w h

/-- Decoder registry built by `FrameDecoder._register_default_decoders`
(frame_decoder.py lines 24-45): JPEG is keyed without a pixel format, NV12
and I420 are keyed under `CODEC_NONE`.  No decoder is registered for
RGB8. -/
def defaultDecoders :
    List ((Codec × Option PixelFormat) × (Cv2 → List ℕ → ℕ → ℕ → Option Img)) :=
  [((.CODEC_JPEG, none), decodeJpeg),
   ((.CODEC_NONE, some .PF_NV12), decodeNv12),
   ((.CODEC_NONE, some .PF_I420), decodeI420)]

/-- Dictionary lookup `self._decoders.get(key)`. -/
def lookupDecoder (key : Codec × Option PixelFormat) :
    Option (Cv2 → List ℕ → ℕ → ℕ → Option Img) :=
  (defaultDecoders.find? (fun e => decide (e.1 = key))).map (fun e => e.2)

/-- Embedding of `FrameDecoder.decode` (frame_decoder.py lines 65-101): try
the `(codec, pixel_format)` key, then the `(codec, None)` key, else fail
(`None`, surfaced by the caller as an unsupported format). -/
def decode (cv : Cv2) (data : List ℕ) (codec : Codec) (pf : PixelFormat)
    (w h : ℕ) : Option Img :=
  match lookupDecoder (codec, some pf) with
  | some d => d cv data w h
  | none =>
    match lookupDecoder (codec, none) with
    | some d => d cv data w h
    | none => none

end FrameDec

namespace Wire

/-- Wire message types (`pb.MT_*`). -/
inductive MsgType where
  | MT_UNKNOWN
  | MT_INIT
  | MT_FRAME
  | MT_END
  | MT_INIT_OK
  | MT_WINDOW_UPDATE
  | MT_RESULT
  | MT_ERROR
  | MT_HEARTBEAT
deriving DecidableEq, Repr

/-- Wire error codes (`pb.ErrorCode`). -/
inductive ErrorCode where
  | VERSION_UNSUPPORTED
  | BAD_MESSAGE
  | BAD_SEQUENCE
  | UNSUPPORTED_FORMAT
  | INVALID_FRAME
  | FRAME_TOO_LARGE
  | MODEL_NOT_READY
  | BACKPRESSURE_TIMEOUT
  | INTERNAL
deriving DecidableEq, Repr

/-- `Request.Frame` as consumed by the worker.py handler, together with the
two environment outcomes its processing depends on: whether the cv2/numpy
decode raises (`decodeOk`, irrelevant for RGB8 whose reshape is exact), and
the measured end-to-end latency fed to the window auto-tuner. -/
structure FrameMsg where
  frame_id : ℕ
  session_id : String
  codec : FrameDec.Codec
  pixel_format : FrameDec.PixelFormat
  width : ℕ
  height : ℕ
  planeSizes : List ℕ
  dataLen : ℕ
  decodeOk : Bool
  latency_ms : ℚ
deriving DecidableEq, Repr

/-- `Request.Init` with the model-load environment outcome (`loadOk` is
whether `onnxruntime.InferenceSession` succeeds). -/
structure InitMsg where
  model : String
  max_width : ℕ
  max_height : ℕ
  loadOk : Bool
deriving DecidableEq, Repr

/-- The `Request` oneof (`init` / `frame` / `end`, or no field set). -/
inductive ReqMsg where
  | reqInit (i : InitMsg)
  | reqFrame (f : FrameMsg)
  | reqEnd
  | reqUnset
deriving DecidableEq, Repr

/-- Kinds of `Response` payloads a peer could (illegally) send; only used to
compute the expected message type. -/
inductive RespKind where
  | rInitOk
  | rWindowUpdate
  | rResult
  | rError
  | rUnset
deriving DecidableEq, Repr

/-- The envelope `msg` oneof: request, response, heartbeat, or unset. -/
inductive Content where
  | req (r : ReqMsg)
  | res (k : RespKind)
  | hb
  | unset
deriving DecidableEq, Repr

/-- Checks whether the oneof carries a request
(`envelope.WhichOneof("msg") == "req"`). -/
def Content.isReq : Content → Bool
  | .req _ => true
  | _ => false

/-- Wire envelope: protocol version, declared message type, stream id, and
the payload oneof. -/
structure Envelope where
  protocol_version : ℕ
  msg_type : MsgType
  stream_id : String
  content : Content
deriving DecidableEq, Repr

/-- Responses the worker can emit, restricted to the fields the claims
observe (credits in `InitOk`, the echoed frame id in `Result`, the new
size in `WindowUpdate`, the code in `Error`, counters in `Heartbeat`). -/
inductive Response where
  | initOk (initial_credits : ℕ)
  | result (frame_id : ℕ)
  | windowUpdate (new_window_size : ℕ)
  | error (code : ErrorCode)
  | heartbeat (last_frame_id tx rx : ℕ)
deriving DecidableEq, Repr

end Wire

namespace ProtoV1

/-- Embedding of `ProtocolHandler.read_envelope`
(src/protocol/handler.py lines 30-70): reject lengths of `0` or above
50 MiB (`None`, no error message), treat EOF and parse failures as `None`,
and on `protocol_version ≠ 1` send `VERSION_UNSUPPORTED` and return
`None`.  `parsed` is the result of `Envelope.ParseFromString` (`none` on
EOF or parse exception). -/
def read_envelope (length : ℕ) (parsed : Option Wire.Envelope) :
    Option Wire.Envelope × List Wire.Response :=
  if length = 0 ∨ 52428800 < length then (none, [])
  else
    match parsed with
    | none => (none, [])
    | some e =>
      if e.protocol_version ≠ 1 then (none, [.error .VERSION_UNSUPPORTED])
      else (some e, [])

/-- Outcome of one iteration of the worker_new.py connection loop
(worker_new.py `handle`, lines around 122-141): a `None` from
`read_envelope` breaks the loop, after which the `finally` block closes
the connection; otherwise the envelope is dispatched. -/
inductive LoopOutcome where
  | connClosed (sent : List Wire.Response)
  | dispatched (e : Wire.Envelope) (sent : List Wire.Response)
deriving DecidableEq, Repr

/-- One iteration of the worker_new.py read loop, composed with
`read_envelope`. -/
def loopStep (length : ℕ) (parsed : Option Wire.Envelope) : LoopOutcome :=
  match read_envelope length parsed with
  | (none, rs) => .connClosed rs
  | (some e, rs) => .dispatched e rs

end ProtoV1

namespace WorkerV1

/-- Connection state of the worker.py `ConnectionHandler` (lines 434-465):
loop-exit flag, cached stream id, `initialized`, the backpressure window
and in-flight count, last frame id, tx/rx counters, the latency window of
the auto-tuner, and the shared `ModelManager` configuration
(`(model_path, width, height, conf_threshold)`); the embedding runs one
connection against the manager. -/
structure WState where
  closed : Bool
  stream_id : String
  initialized : Bool
  window_size : ℕ
  inflight : ℕ
  last_frame_id : ℕ
  tx_count : ℕ
  rx_count : ℕ
  recent_latencies : List ℚ
  model_config : Option (String × ℕ × ℕ × ℚ)
deriving DecidableEq, Repr

/-- Fresh connection state (worker.py lines 441-465): `window_size = 4`,
nothing in flight, not initialized. -/
def initState : WState :=
  { closed := false
    stream_id := ""
    initialized := false
    window_size := 4
    inflight := 0
    last_frame_id := 0
    tx_count := 0
    rx_count := 0
    recent_latencies := []
    model_config := none }

/-- `get_expected_msg_type` (worker.py lines 526-546): the message type the
oneof should have declared. -/
def expectedMsgType (e : Wire.Envelope) : Wire.MsgType :=
  match e.content with
  | .req r =>
    match r with
    | .reqInit _ => .MT_INIT
    | .reqFrame _ => .MT_FRAME
    | .reqEnd => .MT_END
    | .reqUnset => .MT_UNKNOWN
  | .res k =>
    match k with
    | .rInitOk => .MT_INIT_OK
    | .rWindowUpdate => .MT_WINDOW_UPDATE
    | .rResult => .MT_RESULT
    | .rError => .MT_ERROR
    | .rUnset => .MT_UNKNOWN
  | .hb => .MT_HEARTBEAT
  | .unset => .MT_UNKNOWN

/-- `auto_tune_window` (worker.py lines 701-733): append the latency, keep
the last 10, do nothing below 5 samples; with a high average (> 100 ms)
shrink the window by 1 (floor 2), with a low average (< 30 ms) grow it by
2 (cap 16); emit a `WindowUpdate` exactly when the size changed. -/
def autoTune (s : WState) (latency_ms : ℚ) : WState × List Wire.Response :=
  let lats0 := s.recent_latencies ++ [latency_ms]
  let lats := if 10 < lats0.length then lats0.drop 1 else lats0
  if lats.length < 5 then ({ s with recent_latencies := lats }, [])
  else
    let avg := lats.sum / (lats.length : ℚ)
    let old := s.window_size
    let ws :=
      if 100 < avg ∧ 2 < old then max (old - 1) 2
      else if avg < 30 ∧ old < 16 then min (old + 2) 16
      else old
    if ws ≠ old then
      ({ s with recent_latencies := lats, window_size := ws },
       [.windowUpdate ws])
    else ({ s with recent_latencies := lats }, [])

/-- Outcome of the decode block of `handle_frame` (worker.py lines
620-639). -/
inductive DecodeRes where
  | ok
  | failed
  | unsupported
deriving DecidableEq, Repr

/-- Decode dispatch of `handle_frame` (worker.py lines 620-639): NV12, I420
and JPEG decode through cv2/numpy whose failures are the `decodeOk`
environment bit; RGB8 is a plain `reshape((h, w, 3))`, which succeeds
exactly when the buffer holds `h·w·3` bytes; unknown formats and codecs
are unsupported. -/
def frameDecode (f : Wire.FrameMsg) : DecodeRes :=
  match f.codec with
  | .CODEC_NONE =>
    match f.pixel_format with
    | .PF_NV12 => if f.decodeOk then .ok else .failed
    | .PF_I420 => if f.decodeOk then .ok else .failed
    | .PF_RGB8 => if f.dataLen = f.height * f.width * 3 then .ok else .failed
    | .PF_OTHER _ => .unsupported
  | .CODEC_JPEG => if f.decodeOk then .ok else .failed
  | .CODEC_OTHER _ => .unsupported

/-- Embedding of `handle_frame` (worker.py lines 593-684): reject before
`Init` with `BAD_SEQUENCE`; with a full window reply
`BACKPRESSURE_TIMEOUT`; otherwise take a credit, validate the planes of
raw frames, decode, and on success send the `Result`, release the credit
(under the source's `if self.inflight > 0` guard) and run the auto-tuner.
The early error returns do not release the taken credit, exactly as in the
source. -/
def handleFrame (s : WState) (f : Wire.FrameMsg) :
    WState × List Wire.Response :=
  if ¬ s.initialized then (s, [.error .BAD_SEQUENCE])
  else if s.window_size ≤ s.inflight then (s, [.error .BACKPRESSURE_TIMEOUT])
  else
    let s1 := { s with inflight := s.inflight + 1, last_frame_id := f.frame_id }
    if f.codec = .CODEC_NONE ∧ f.planeSizes.sum ≠ f.dataLen then
      (s1, [.error .INVALID_FRAME])
    else
      match frameDecode f with
      | .unsupported => (s1, [.error .UNSUPPORTED_FORMAT])
      | .failed => (s1, [.error .INVALID_FRAME])
      | .ok =>
        let s2 := { s1 with
          inflight := if 0 < s1.inflight then s1.inflight - 1 else s1.inflight }
        let tuned := autoTune s2 f.latency_ms
        (tuned.1, [.result f.frame_id] ++ tuned.2)

/-- Embedding of `handle_init` (worker.py lines 557-591): build the model
configuration (fixed `conf_threshold = 0.35`), hot-reload when it differs
from the manager's current one (a load failure raises, which the main loop
turns into a connection close without a response), then send `InitOk`
carrying the current window size as initial credits and mark the handler
initialized. -/
def handleInit (s : WState) (i : Wire.InitMsg) : WState × List Wire.Response :=
  let cfg : String × ℕ × ℕ × ℚ := (i.model, i.max_width, i.max_height, 35 / 100)
  if s.model_config ≠ some cfg then
    if i.loadOk then
      ({ s with model_config := some cfg, initialized := true },
       [.initOk s.window_size])
    else ({ s with closed := true }, [])
  else ({ s with initialized := true }, [.initOk s.window_size])

/-- `handle_end` (worker.py lines 686-690): close the writer; the
connection is over. -/
def handleEnd (s : WState) : WState × List Wire.Response :=
  ({ s with closed := true }, [])

/-- `handle_heartbeat` (worker.py lines 692-699): echo a heartbeat with the
handler's `last_frame_id` and tx/rx counters. -/
def handleHeartbeat (s : WState) : WState × List Wire.Response :=
  (s, [.heartbeat s.last_frame_id s.tx_count s.rx_count])

/-- Embedding of `handle_envelope` (worker.py lines 498-524): version gate,
`msg_type` / oneof consistency gate, stream-id caching, the
first-message-must-be-a-request gate (`BAD_SEQUENCE`), then routing to the
request / heartbeat handlers (a response payload from the peer is routed
nowhere). -/
def handleEnvelope (s : WState) (e : Wire.Envelope) :
    WState × List Wire.Response :=
  if e.protocol_version ≠ 1 then (s, [.error .VERSION_UNSUPPORTED])
  else if expectedMsgType e ≠ e.msg_type then (s, [.error .BAD_MESSAGE])
  else
    let s := if s.stream_id = "" then { s with stream_id := e.stream_id } else s
    if ¬ s.initialized ∧ ¬ e.content.isReq then (s, [.error .BAD_SEQUENCE])
    else
      match e.content with
      | .req r =>
        (match r with
         | .reqInit i => handleInit s i
         | .reqFrame f => handleFrame s f
         | .reqEnd => handleEnd s
         | .reqUnset => (s, []))
      | .hb => handleHeartbeat s
      | _ => (s, [])

/-- Network-level events of one iteration of `handle` (worker.py lines
467-496): a clean disconnect (`IncompleteReadError`), or a framed message
whose declared `length` is validated first and whose body parse may fail
(`parsed = none`, the raised exception closes the connection). -/
inductive NetEvent where
  | disconnect
  | msg (length : ℕ) (parsed : Option Wire.Envelope)
deriving DecidableEq, Repr

/-- One iteration of the worker.py connection loop as a step function:
length gate (`FRAME_TOO_LARGE` then break), rx counting, parse-failure
close, envelope handling, and tx counting for every response written. -/
def step (s : WState) : NetEvent → WState × List Wire.Response
  | .disconnect => ({ s with closed := true }, [])
  | .msg length parsed =>
    if length = 0 ∨ 52428800 < length then
      ({ s with closed := true, tx_count := s.tx_count + 1 },
       [.error .FRAME_TOO_LARGE])
    else
      match parsed with
      | none => ({ s with rx_count := s.rx_count + 1, closed := true }, [])
      | some e =>
        let s1 := { s with rx_count := s.rx_count + 1 }
        let r := handleEnvelope s1 e
        ({ r.1 with tx_count := r.1.tx_count + r.2.length }, r.2)

/-- States of the per-connection step relation reachable from a fresh
connection; the loop only processes further events while it has not
exited. -/
inductive Reachable : WState → Prop
  | base : Reachable initState
  | next {s : WState} (ev : NetEvent) :
      Reachable s → s.closed = false → Reachable (step s ev).1

/-- A raw NV12 frame whose declared plane sizes (none) do not sum to its
data length: `handle_frame` rejects it after taking a credit. -/
def badFrame : Wire.FrameMsg :=
  ⟨1, "", .CODEC_NONE, .PF_NV12, 2, 2, [], 1, true, 0⟩

/-- A well-formed `Init` event (model loads fine). -/
def evInit : NetEvent :=
  .msg 5 (some ⟨1, .MT_INIT, "w", .req (.reqInit ⟨"m", 640, 640, true⟩)⟩)

/-- The event carrying `badFrame`. -/
def evBad : NetEvent :=
  .msg 5 (some ⟨1, .MT_FRAME, "s", .req (.reqFrame badFrame)⟩)

/-- The state after `Init` and four rejected raw frames: each rejection
leaked one credit, so the window (4) is exhausted. -/
def sBp : WState :=
  (step (step (step (step (step initState evInit).1 evBad).1 evBad).1
    evBad).1 evBad).1

end WorkerV1

/-! ## Theorems -/

namespace BotSort

/-- The clamped intersection side is at most the clamped side of the first
box. -/
theorem clamp_inter_le (ax1 ax2 bx1 bx2 : ℚ) :
    max 0 (min ax2 bx2 - max ax1 bx1) ≤ max 0 (ax2 - ax1) := by
  apply max_le (le_max_left _ _)
  exact le_max_of_le_right (sub_le_sub (min_le_left _ _) (le_max_left _ _))

/-- Arithmetic core of the IoU bounds: a fraction with numerator `i` between
`0` and both `aA` and `aB`, over the inflated union, lies in `[0, 1)`. -/
theorem iou_frac_bounds (i aA aB e : ℚ) (h0 : 0 ≤ i) (hA : i ≤ aA)
    (hB : i ≤ aB) (he : 0 < e) :
    0 ≤ i / (aA + aB - i + e) ∧ i / (aA + aB - i + e) < 1 := by
  have hden : 0 < aA + aB - i + e := by linarith
  constructor
  · exact div_nonneg h0 hden.le
  · rw [div_lt_one hden]
    linarith

end BotSort

/-- Claim C10: the tracker's IoU is symmetric and strictly below `1`: for
all boxes `a`, `b`, `iou_xyxy a b = iou_xyxy b a` and
`0 ≤ iou_xyxy a b < 1` (so `iou_xyxy a a < 1` as well, and an association
threshold of exactly `1` can never be met).  Proved for all rational
boxes, normalized or not. -/
theorem c10_iou_xyxy_symm_bounded (a b : Quad) :
    BotSort.iou_xyxy a b = BotSort.iou_xyxy b a ∧
    0 ≤ BotSort.iou_xyxy a b ∧ BotSort.iou_xyxy a b < 1 := by
  obtain ⟨ax1, ay1, ax2, ay2⟩ := a
  obtain ⟨bx1, by1, bx2, by2⟩ := b
  refine ⟨?_, ?_⟩
  · simp only [BotSort.iou_xyxy]
    rw [max_comm bx1 ax1, max_comm by1 ay1, min_comm bx2 ax2,
      min_comm by2 ay2]
    ring_nf
  · simp only [BotSort.iou_xyxy]
    exact BotSort.iou_frac_bounds _ _ _ _
      (mul_nonneg (le_max_left _ _) (le_max_left _ _))
      (mul_le_mul (BotSort.clamp_inter_le _ _ _ _)
        (BotSort.clamp_inter_le _ _ _ _) (le_max_left _ _) (le_max_left _ _))
      (by
        have hx : max 0 (min ax2 bx2 - max ax1 bx1) ≤ max 0 (bx2 - bx1) := by
          apply max_le (le_max_left _ _)
          exact le_max_of_le_right
            (sub_le_sub (min_le_right _ _) (le_max_right _ _))
        have hy : max 0 (min ay2 by2 - max ay1 by1) ≤ max 0 (by2 - by1) := by
          apply max_le (le_max_left _ _)
          exact le_max_of_le_right
            (sub_le_sub (min_le_right _ _) (le_max_right _ _))
        exact mul_le_mul hx hy (le_max_left _ _) (le_max_left _ _))
      (by norm_num)


/-- Claim C4 counterexample: a Frame declaring RGB8 with codec NONE and a
data buffer of exactly `width·height·3 = 12` bytes is rejected by
`FrameDecoder.decode` (no decoder is registered for RGB8), contradicting
the claim that it decodes successfully; the cv2 callbacks are never
reached (witnessed here by total stubs). -/
theorem c4_rgb8_counterexample :
    FrameDec.decode
      ⟨fun _ => some ⟨1, 1⟩, fun _ _ _ => some ⟨1, 1⟩, fun _ _ _ => some ⟨1, 1⟩⟩
      (List.replicate 12 0) .CODEC_NONE .PF_RGB8 2 2 = none := rfl

/-- Claim C4 (amended): `FrameDecoder._register_default_decoders` registers
only JPEG, NV12 and I420, so `decode` fails on every RGB8/NONE frame —
whatever the data, dimensions and cv2 behaviour — and the caller surfaces
this as an unsupported format.  (Only the legacy monolithic `worker.py`
decodes RGB8 inline via `reshape`.) -/
theorem c4_rgb8_always_unsupported (cv : FrameDec.Cv2) (data : List ℕ)
    (w h : ℕ) :
    FrameDec.decode cv data .CODEC_NONE .PF_RGB8 w h = none := rfl

/-- Claim C2: a successfully framed and parsed envelope whose
`protocol_version` is not 1 makes the worker send exactly one Error with
code `VERSION_UNSUPPORTED` and then close the connection
(`read_envelope` returns `None`, the worker_new.py loop breaks, and its
`finally` block closes the stream). -/
theorem c2_version_unsupported_closes (length : ℕ) (e : Wire.Envelope)
    (hlen : ¬(length = 0 ∨ 52428800 < length))
    (hver : e.protocol_version ≠ 1) :
    ProtoV1.loopStep length (some e) =
      .connClosed [.error .VERSION_UNSUPPORTED] := by
  simp [ProtoV1.loopStep, ProtoV1.read_envelope, hlen, hver]

/-- Claim C2 witness: a version-2 envelope of wire length 10. -/
theorem c2_version_unsupported_closes_witness :
    ProtoV1.loopStep 10 (some ⟨2, .MT_INIT, "s", .unset⟩) =
      .connClosed [.error .VERSION_UNSUPPORTED] :=
  c2_version_unsupported_closes 10 ⟨2, .MT_INIT, "s", .unset⟩
    (by decide) (by decide)

namespace Session

/-- Round-half-to-even lands within one half of the input. -/
theorem roundHalfEven_dist (q : ℚ) :
    |((roundHalfEven q : ℤ) : ℚ) - q| ≤ 1 / 2 := by
  unfold roundHalfEven
  have h0 : (⌊q⌋ : ℚ) ≤ q := Int.floor_le q
  have h1 : q < (⌊q⌋ : ℚ) + 1 := Int.lt_floor_add_one q
  by_cases hlt : q - (⌊q⌋ : ℚ) < 1 / 2
  · rw [if_pos hlt, abs_le]
    constructor <;> linarith
  · rw [if_neg hlt]
    by_cases hgt : 1 / 2 < q - (⌊q⌋ : ℚ)
    · rw [if_pos hgt, abs_le]
      push_cast
      constructor <;> linarith
    · rw [if_neg hgt]
      have heq : q - (⌊q⌋ : ℚ) = 1 / 2 := le_antisymm (not_lt.1 hgt) (not_lt.1 hlt)
      by_cases hev : Even ⌊q⌋
      · rw [if_pos hev, abs_le]
        constructor <;> linarith
      · rw [if_neg hev, abs_le]
        push_cast
        constructor <;> linarith

/-- Rounding to three decimals moves a value by at most `0.0005`. -/
theorem round3_dist (q : ℚ) : |round3 q - q| ≤ 1 / 2000 := by
  have h := roundHalfEven_dist (q * 1000)
  unfold round3
  have : (roundHalfEven (q * 1000) : ℚ) / 1000 - q =
      ((roundHalfEven (q * 1000) : ℚ) - q * 1000) / 1000 := by ring
  rw [this, abs_div]
  rw [show |(1000 : ℚ)| = 1000 by norm_num]
  rw [div_le_iff₀ (by norm_num)]
  calc |((roundHalfEven (q * 1000) : ℤ) : ℚ) - q * 1000| ≤ 1 / 2 := h
    _ ≤ 1 / 2000 * 1000 := by norm_num

/-- Clamping a value at zero from below yields a non-negative value. -/
theorem clamp_zero_nonneg (raw : ℚ) :
    0 ≤ if raw < 0 then (0 : ℚ) else raw := by
  split
  · exact le_refl (0 : ℚ)
  · next h => exact not_lt.1 h

/-- The clamped relative timestamp is never negative. -/
theorem tRel_nonneg (s : WriterState) (frame_idx : ℕ)
    (m u : Option ℤ) : 0 ≤ tRel s frame_idx m u := by
  unfold tRel
  exact clamp_zero_nonneg _

/-- Epoch capture does not change the segment duration. -/
theorem captureEpochs_duration (s : WriterState) (m u : Option ℤ) :
    (captureEpochs s m u).segment_duration_s = s.segment_duration_s := by
  unfold captureEpochs
  rcases m with _ | mv <;> rcases u with _ | uv <;>
    rcases hsm : s.session_start_mono_ns with _ | e1 <;>
    rcases hsu : s.session_start_utc_ns with _ | e2 <;>
    simp [hsm, hsu]

end Session

/-- Evaluation of the writer constructor at `fps = 10`,
`segment_duration_s = 10` (the clamps do not bite). -/
theorem writerInit_ten_ten :
    Session.WriterState.init 10 10 = ⟨10, 10, none, none, none, none, 0⟩ := by
  simp only [Session.WriterState.init]
  norm_num

/-- Evaluation of the first write of the C8 scenario (`ts_mono_ns = 0`
becomes the epoch; segment 0, written `t_rel_s = 0`). -/
theorem writeFrame_eval_first :
    Session.writeFrame (⟨10, 10, none, none, none, none, 0⟩ :
        Session.WriterState)
      [⟨1, 0, "person", 1, (0, 0, 1, 1), 1, none, 0, 1, 1, 0, .tentative⟩]
      0 (some 0) none =
    (⟨10, 10, some 0, none, some 0, none, 1⟩, some ⟨0, 0, 0⟩) := by
  unfold Session.writeFrame Session.captureEpochs Session.tRel
    Session.segmentIndex Session.round3 Session.roundHalfEven
  norm_num

/-- Evaluation of the second write of the C8 scenario
(`ts_mono_ns = 9_999_999_999`, relative time `9.999999999 s`): the record
goes to segment 0 with written value `round(…, 3) = 10`. -/
theorem writeFrame_eval_second :
    Session.writeFrame (⟨10, 10, some 0, none, some 0, none, 1⟩ :
        Session.WriterState)
      [⟨1, 0, "person", 1, (0, 0, 1, 1), 1, none, 0, 1, 1, 0, .tentative⟩]
      1 (some 9999999999) none =
    (⟨10, 10, some 0, none, some 9999999999, none, 2⟩, some ⟨0, 10, 1⟩) := by
  unfold Session.writeFrame Session.captureEpochs Session.tRel
    Session.segmentIndex Session.round3 Session.roundHalfEven
  norm_num

/-- Claim C8 counterexample: with `segment_duration_s = 10`, a first write
at `ts_mono_ns = 0` followed by a write at `ts_mono_ns = 9_999_999_999`
(relative time `9.999999999 s`) lands in `seg-0000.jsonl`, but the
`t_rel_s` value written on that line is `round(9.999999999, 3) = 10.0`,
which is not `< (0+1)·10` — the claim fails for the recorded value. -/
theorem c8_counterexample :
    (Session.writeFrame
        (Session.writeFrame (Session.WriterState.init 10 10)
          [⟨1, 0, "person", 1, (0, 0, 1, 1), 1, none, 0, 1, 1, 0,
            .tentative⟩] 0 (some 0) none).1
        [⟨1, 0, "person", 1, (0, 0, 1, 1), 1, none, 0, 1, 1, 0,
          .tentative⟩] 1 (some 9999999999) none).2 =
      some ⟨0, 10, 1⟩ ∧
    ¬((10 : ℚ) < (((0 : ℤ) : ℚ) + 1) * 10) := by
  constructor
  · rw [writerInit_ten_ten, writeFrame_eval_first, writeFrame_eval_second]
  · norm_num

/-- Claim C8 (amended): for every record `write_frame` appends to
`seg-NNNN.jsonl`, the unrounded relative time `t_rel` from which the record
is derived satisfies `NNNN·D ≤ t_rel < (NNNN+1)·D` (with `D` the writer's
clamped segment duration); the `t_rel_s` stored on the line is `t_rel`
rounded to three decimals and hence within `0.0005` of that window, but —
as the counterexample shows — not always inside it. -/
theorem c8_segment_window_amended (st : Session.WriterState)
    (tracks : List BotSort.Track) (frame_idx : ℕ) (m u : Option ℤ)
    (hD : 1 / 10 ≤ st.segment_duration_s)
    (st' : Session.WriterState) (ev : Session.Event)
    (hw : Session.writeFrame st tracks frame_idx m u = (st', some ev)) :
    (((ev.seg : ℚ) * st.segment_duration_s ≤
        Session.tRel (Session.captureEpochs st m u) frame_idx m u ∧
      Session.tRel (Session.captureEpochs st m u) frame_idx m u <
        ((ev.seg : ℚ) + 1) * st.segment_duration_s)) ∧
    |ev.t_rel_s -
        Session.tRel (Session.captureEpochs st m u) frame_idx m u| ≤
      1 / 2000 := by
  have hD0 : (0 : ℚ) < st.segment_duration_s := lt_of_lt_of_le (by norm_num) hD
  unfold Session.writeFrame at hw
  split at hw
  · exact absurd (congrArg Prod.snd hw) (by simp)
  · have hev :
        Session.Event.mk
          (Session.segmentIndex
            (Session.tRel (Session.captureEpochs st m u) frame_idx m u)
            (Session.captureEpochs st m u).segment_duration_s)
          (Session.round3
            (Session.tRel (Session.captureEpochs st m u) frame_idx m u))
          frame_idx = ev :=
      Option.some.inj (congrArg Prod.snd hw)
    rw [Session.captureEpochs_duration] at hev
    subst hev
    set t := Session.tRel (Session.captureEpochs st m u) frame_idx m u with ht
    refine ⟨⟨?_, ?_⟩, ?_⟩
    · have h1 : ((⌊t / st.segment_duration_s⌋ : ℤ) : ℚ) ≤
          t / st.segment_duration_s := Int.floor_le _
      calc ((⌊t / st.segment_duration_s⌋ : ℤ) : ℚ) * st.segment_duration_s
          ≤ t / st.segment_duration_s * st.segment_duration_s :=
            mul_le_mul_of_nonneg_right h1 hD0.le
        _ = t := div_mul_cancel₀ _ hD0.ne'
    · have h2 : t / st.segment_duration_s <
          ((⌊t / st.segment_duration_s⌋ : ℤ) : ℚ) + 1 :=
        Int.lt_floor_add_one _
      have := (div_lt_iff₀ hD0).1 h2
      simpa [Session.segmentIndex] using this
    · exact Session.round3_dist t

/-- Claim C8 witness: the amended bounds at the first write of a writer
with `D = 10` (`ts_mono_ns = 0`, segment 0, written value `0`). -/
theorem c8_segment_window_amended_witness :
    ((((0 : ℤ) : ℚ) * (10 : ℚ) ≤
        Session.tRel
          (Session.captureEpochs
            (⟨10, 10, none, none, none, none, 0⟩ : Session.WriterState)
            (some 0) none) 0 (some 0) none ∧
      Session.tRel
          (Session.captureEpochs
            (⟨10, 10, none, none, none, none, 0⟩ : Session.WriterState)
            (some 0) none) 0 (some 0) none <
        (((0 : ℤ) : ℚ) + 1) * (10 : ℚ))) ∧
    |(0 : ℚ) -
        Session.tRel
          (Session.captureEpochs
            (⟨10, 10, none, none, none, none, 0⟩ : Session.WriterState)
            (some 0) none) 0 (some 0) none| ≤ 1 / 2000 :=
  c8_segment_window_amended
    (⟨10, 10, none, none, none, none, 0⟩ : Session.WriterState)
    [⟨1, 0, "person", 1, (0, 0, 1, 1), 1, none, 0, 1, 1, 0, .tentative⟩]
    0 (some 0) none (by norm_num)
    ⟨10, 10, some 0, none, some 0, none, 1⟩ ⟨0, 0, 0⟩ writeFrame_eval_first

namespace Yolo11

instance : IsTotal (Quad × ℚ) scoreGe :=
  ⟨fun a b => le_total b.2 a.2⟩

instance : IsTrans (Quad × ℚ) scoreGe :=
  ⟨fun _ _ _ hab hbc => le_trans hbc hab⟩

/-- The greedy loop only ever keeps elements of its input. -/
theorem nmsRun_sublist (thr : ℚ) :
    ∀ (fuel : ℕ) (l : List (Quad × ℚ)), (nmsRun thr fuel l).Sublist l := by
  intro fuel
  induction fuel with
  | zero => intro l; simp [nmsRun]
  | succ fuel ih =>
    intro l
    cases l with
    | nil => simp [nmsRun]
    | cons p rest =>
      exact List.Sublist.cons₂ p
        ((ih _).trans (List.filter_sublist rest))

/-- Every two boxes kept by the greedy loop overlap by at most the
threshold (the earlier-kept box suppressed everything above it). -/
theorem nmsRun_pairwise (thr : ℚ) :
    ∀ (fuel : ℕ) (l : List (Quad × ℚ)),
      List.Pairwise (fun a b => nmsIou a.1 b.1 ≤ thr) (nmsRun thr fuel l) := by
  intro fuel
  induction fuel with
  | zero => intro l; simp [nmsRun]
  | succ fuel ih =>
    intro l
    cases l with
    | nil => simp [nmsRun]
    | cons p rest =>
      refine List.Pairwise.cons ?_ (ih _)
      intro q hq
      have hqf := (nmsRun_sublist thr fuel _).mem hq
      exact of_decide_eq_true (List.mem_filter.1 hqf).2

/-- On a list whose members already pairwise respect the threshold, the
greedy loop (with enough fuel) keeps everything. -/
theorem nmsRun_eq_self (thr : ℚ) :
    ∀ (fuel : ℕ) (l : List (Quad × ℚ)),
      List.Pairwise (fun a b => nmsIou a.1 b.1 ≤ thr) l →
      l.length ≤ fuel → nmsRun thr fuel l = l := by
  intro fuel
  induction fuel with
  | zero =>
    intro l _ hlen
    rw [List.length_eq_zero.1 (Nat.le_zero.1 hlen)]
    rfl
  | succ fuel ih =>
    intro l hpw hlen
    cases l with
    | nil => rfl
    | cons p rest =>
      rcases hpw with _ | ⟨hp, htail⟩
      have hfilter : rest.filter
          (fun q => decide (nmsIou p.1 q.1 ≤ thr)) = rest :=
        List.filter_eq_self.2 (fun q hq => decide_eq_true (hp q hq))
      simp only [nmsRun, hfilter]
      rw [ih rest htail (Nat.le_of_succ_le_succ hlen)]

end Yolo11

/-- Claim C7: greedy NMS is idempotent — applying `YOLO11Model.nms` to the
boxes (with scores) it kept, at the same IoU threshold, keeps exactly the
same boxes, in the same order.  Holds for every box list and every
threshold. -/
theorem c7_nms_idempotent (thr : ℚ) (l : List (Quad × ℚ)) :
    Yolo11.nms thr (Yolo11.nms thr l) = Yolo11.nms thr l := by
  simp only [Yolo11.nms]
  set s := List.insertionSort Yolo11.scoreGe l with hs
  have hsorted : List.Sorted Yolo11.scoreGe s :=
    List.sorted_insertionSort Yolo11.scoreGe l
  have hsub : (Yolo11.nmsRun thr s.length s).Sublist s :=
    Yolo11.nmsRun_sublist thr s.length s
  have hsorted_out : List.Sorted Yolo11.scoreGe (Yolo11.nmsRun thr s.length s) :=
    List.Pairwise.sublist hsub hsorted
  rw [List.Sorted.insertionSort_eq hsorted_out]
  exact Yolo11.nmsRun_eq_self thr _ _
    (Yolo11.nmsRun_pairwise thr s.length s) (le_refl _)

namespace BotSort

/-- One association step never decreases `next_id` (it increments it exactly
on a spawn). -/
theorem assocStep_next_id_le (mt : ℚ) (mh fi : ℕ) (acc : AssocAcc)
    (det : Det) : acc.next_id ≤ (assocStep mt mh fi acc det).next_id := by
  unfold assocStep
  dsimp only
  split
  · split
    · split
      · exact le_refl _
      · exact le_refl _
    · exact Nat.le_succ _
  · exact Nat.le_succ _

/-- The association fold never decreases `next_id`. -/
theorem assocFold_next_id_le (mt : ℚ) (mh fi : ℕ) :
    ∀ (dets : List Det) (acc : AssocAcc),
      acc.next_id ≤ (dets.foldl (assocStep mt mh fi) acc).next_id := by
  intro dets
  induction dets with
  | nil => intro acc; exact le_refl _
  | cons d rest ih =>
    intro acc
    exact le_trans (assocStep_next_id_le mt mh fi acc d)
      (ih (assocStep mt mh fi acc d))

/-- `update` never decreases `next_id`. -/
theorem update_next_id_le (s : TrackerState) (dets : List Det) :
    s.next_id ≤ (s.update dets).next_id := by
  unfold TrackerState.update
  dsimp only
  split
  · exact le_refl _
  · exact assocFold_next_id_le s.match_thresh s.min_hits (s.frame_idx + 1)
      dets ⟨s.tracks, [], [], s.next_id⟩

/-- A run of updates never decreases `next_id`. -/
theorem runUpdates_next_id_le (run : List (List Det)) :
    ∀ (s : TrackerState), s.next_id ≤ (s.runUpdates run).next_id := by
  induction run with
  | nil => intro s; exact le_refl _
  | cons d rest ih =>
    intro s
    exact le_trans (update_next_id_le s d) (ih (s.update d))

/-- The ids allocated along a run are exactly the counter values from the
starting `next_id` up to the final one. -/
theorem allocRun_eq_range' (run : List (List Det)) :
    ∀ (s : TrackerState),
      allocRun s run =
        List.range' s.next_id ((s.runUpdates run).next_id - s.next_id) := by
  induction run with
  | nil =>
    intro s
    simp [allocRun, TrackerState.runUpdates]
  | cons d rest ih =>
    intro s
    have h1 : s.next_id ≤ (s.update d).next_id := update_next_id_le s d
    have h2 : (s.update d).next_id ≤
        ((s.update d).runUpdates rest).next_id := runUpdates_next_id_le rest _
    obtain ⟨k, hk⟩ : ∃ k, (s.update d).next_id = s.next_id + k :=
      ⟨_, (Nat.add_sub_cancel' h1).symm⟩
    obtain ⟨n, hn⟩ : ∃ n, ((s.update d).runUpdates rest).next_id =
        (s.update d).next_id + n := ⟨_, (Nat.add_sub_cancel' h2).symm⟩
    show allocatedIds s d ++ allocRun (s.update d) rest =
      List.range' s.next_id (((s.update d).runUpdates rest).next_id - s.next_id)
    rw [ih (s.update d)]
    unfold allocatedIds
    rw [hn, hk]
    have hcount1 : s.next_id + k - s.next_id = k := by omega
    have hcount2 : s.next_id + k + n - (s.next_id + k) = n := by omega
    have hcount3 : s.next_id + k + n - s.next_id = n + k := by omega
    rw [hcount1, hcount2, hcount3]
    have := List.range'_append s.next_id k n 1
    rw [one_mul] at this
    exact this

end BotSort

/-- Claim C9: after a tracker reset, the allocated `track_id`s over any run
of `update` calls are exactly `1, 2, 3, …` — the list of allocated ids
equals `range' 1 k` (so the first spawned track gets id 1) and is strictly
increasing (every later id exceeds all earlier ones). -/
theorem c9_track_ids_monotone_from_one (s : BotSort.TrackerState)
    (run : List (List BotSort.Det)) :
    BotSort.allocRun s.reset run =
      List.range' 1
        ((BotSort.TrackerState.runUpdates s.reset run).next_id - 1) ∧
    (BotSort.allocRun s.reset run).Pairwise (· < ·) := by
  have h := BotSort.allocRun_eq_range' run s.reset
  refine ⟨h, ?_⟩
  rw [h]
  exact List.pairwise_lt_range' _ _

namespace Yolo11

/-- Clipping never goes below the lower bound. -/
theorem clipQ_lower (v lo hi : ℚ) : lo ≤ clipQ v lo hi := le_max_left _ _

/-- Clipping never exceeds the upper bound (when the bounds are ordered). -/
theorem clipQ_upper (v lo hi : ℚ) (h : lo ≤ hi) : clipQ v lo hi ≤ hi :=
  max_le h (min_le_right _ _)

/-- Clipping is the identity on values already inside the bounds. -/
theorem clipQ_id (v lo hi : ℚ) (h1 : lo ≤ v) (h2 : v ≤ hi) :
    clipQ v lo hi = v := by
  unfold clipQ
  rw [min_eq_left h2, max_eq_right h1]

/-- Every pair kept by `nms` comes from its input list. -/
theorem mem_of_mem_nms (thr : ℚ) (p : Quad × ℚ) (l : List (Quad × ℚ))
    (h : p ∈ nms thr l) : p ∈ l := by
  unfold nms at h
  have h2 := (nmsRun_sublist thr _ _).mem h
  exact (List.perm_insertionSort scoreGe l).mem_iff.1 h2

/-- The argmax accumulator returns an index below the running bound. -/
theorem argmaxAux_lt (l : List ℚ) :
    ∀ (best : ℚ) (bi i : ℕ), bi < i → argmaxAux best bi i l < i + l.length := by
  induction l with
  | nil => intro best bi i h; simpa [argmaxAux] using h
  | cons v rest ih =>
    intro best bi i h
    simp only [argmaxAux]
    split
    · have := ih v i (i + 1) (Nat.lt_succ_self i)
      simp only [List.length_cons]
      omega
    · have := ih best bi (i + 1) (lt_trans h (Nat.lt_succ_self i))
      simp only [List.length_cons]
      omega

/-- On a non-empty list, `argmaxIdx` is a valid index. -/
theorem argmaxIdx_lt_length (l : List ℚ) (h : l ≠ []) :
    argmaxIdx l < l.length := by
  cases l with
  | nil => exact absurd rfl h
  | cons v rest =>
    simp only [argmaxIdx, List.length_cons]
    have := argmaxAux_lt rest v 0 1 (by omega)
    omega

/-- With a non-empty allowed list, the selected class belongs to it. -/
theorem selectClass_mem (al : List ℤ) (hne : al ≠ []) (r : PredRow) :
    (selectClass (some al) r).1 ∈ al := by
  simp only [selectClass]
  have hlen : (al.map (fun c => r.scores.getD c.toNat 0)).length = al.length :=
    List.length_map _ _
  have hne2 : al.map (fun c => r.scores.getD c.toNat 0) ≠ [] := by
    intro hx
    exact hne (List.map_eq_nil_iff.1 hx)
  have hlt : argmaxIdx (al.map (fun c => r.scores.getD c.toNat 0)) <
      al.length := by
    rw [← hlen]
    exact argmaxIdx_lt_length _ hne2
  rw [List.getD_eq_getElem al 0 hlt]
  exact List.getElem_mem _

/-- The sigmoid step does not change the class count. -/
theorem numClasses_applySquash (sig : ℚ → ℚ) (rows : List PredRow) :
    numClasses (applySquash sig rows) = numClasses rows := by
  cases rows with
  | nil => rfl
  | cons r rest =>
    simp only [applySquash, List.map_cons, numClasses]
    split <;> simp

/-- All four components of a transformed box lie inside the original image
rectangle. -/
theorem toOrig_bounds (xywh : Quad) (pad : ℚ × ℚ) (scale w h : ℚ)
    (hw : 0 ≤ w) (hh : 0 ≤ h) :
    (0 ≤ (toOrig xywh pad scale w h).1 ∧ (toOrig xywh pad scale w h).1 ≤ w) ∧
    (0 ≤ (toOrig xywh pad scale w h).2.1 ∧
      (toOrig xywh pad scale w h).2.1 ≤ h) ∧
    (0 ≤ (toOrig xywh pad scale w h).2.2.1 ∧
      (toOrig xywh pad scale w h).2.2.1 ≤ w) ∧
    (0 ≤ (toOrig xywh pad scale w h).2.2.2 ∧
      (toOrig xywh pad scale w h).2.2.2 ≤ h) :=
  ⟨⟨clipQ_lower _ _ _, clipQ_upper _ _ _ hw⟩,
   ⟨clipQ_lower _ _ _, clipQ_upper _ _ _ hh⟩,
   ⟨clipQ_lower _ _ _, clipQ_upper _ _ _ hw⟩,
   ⟨clipQ_lower _ _ _, clipQ_upper _ _ _ hh⟩⟩

end Yolo11

namespace Yolo11

/-- Per-class NMS only keeps candidates of its input list (grouping,
suppression and regrouping introduce nothing new). -/
theorem mem_perClassNms (ni : ℚ) (valid : List Cand) (c : Cand)
    (hc : c ∈ perClassNms ni valid) : c ∈ valid := by
  unfold perClassNms at hc
  obtain ⟨cid, _, hc2⟩ := List.mem_flatMap.1 hc
  obtain ⟨p, hp, hmk⟩ := List.mem_map.1 hc2
  have hp2 := mem_of_mem_nms _ _ _ hp
  obtain ⟨v, hv, hproj⟩ := List.mem_map.1 hp2
  obtain ⟨hvval, hpred⟩ := List.mem_filter.1 hv
  have hcls : v.cls = cid := of_decide_eq_true hpred
  cases v with
  | mk vx vc vcl =>
    simp only at hproj hcls
    rw [← hmk, ← hproj, ← hcls]
    exact hvval

/-- Surviving the degeneracy filter means membership plus strict
inequalities on both axes. -/
theorem mem_validCands (boxed : List Cand) (c : Cand)
    (hc : c ∈ validCands boxed) :
    c ∈ boxed ∧ c.xyxy.1 < c.xyxy.2.2.1 ∧ c.xyxy.2.1 < c.xyxy.2.2.2 := by
  obtain ⟨h1, h2⟩ := List.mem_filter.1 hc
  rw [Bool.and_eq_true] at h2
  exact ⟨h1, of_decide_eq_true h2.1, of_decide_eq_true h2.2⟩

/-- Every geometry-stage candidate's box is a `toOrig` image. -/
theorem mem_geomCands (pad : ℚ × ℚ) (scale orig_w orig_h : ℚ)
    (picked : List (Quad × ℤ × ℚ)) (c : Cand)
    (hc : c ∈ geomCands pad scale orig_w orig_h picked) :
    ∃ pre ∈ picked, c.xyxy = toOrig pre.1 pad scale orig_w orig_h ∧
      c.cls = pre.2.1 := by
  obtain ⟨pre, hpre, hmk⟩ := List.mem_map.1 hc
  exact ⟨pre, hpre, by rw [← hmk], by rw [← hmk]⟩

/-- Every selection-stage candidate's class comes from `selectClass`. -/
theorem mem_buildCands_cls (allowed : Option (List ℤ)) (rows : List PredRow)
    (x : Quad × ℤ × ℚ) (hx : x ∈ buildCands allowed rows) :
    ∃ r ∈ rows, x.2.1 = (selectClass allowed r).1 := by
  obtain ⟨r, hr, hmk⟩ := List.mem_map.1 hx
  exact ⟨r, hr, by rw [← hmk]⟩

end Yolo11

namespace Yolo11

/-- Anatomy of a detection returned by `postprocess_with_nms`: it comes from
a row that passed the confidence gate and the class filter, its clipped
box is non-degenerate, and its bbox is that box normalized. -/
theorem mem_postprocessWithNms (rows : List NmsRow) (scale : ℚ)
    (pad : ℚ × ℚ) (orig : ℕ × ℕ) (ct : ℚ) (cf : Option (List ℤ))
    (d : Detection) (hd : d ∈ postprocessWithNms rows scale pad orig ct cf) :
    ∃ r ∈ rows,
      ¬ r.conf < ct ∧
      filterDrops cf (intTrunc r.cls) = false ∧
      clipQ ((r.x1 - pad.1) / scale) 0 (orig.2 : ℚ) <
        clipQ ((r.x2 - pad.1) / scale) 0 (orig.2 : ℚ) ∧
      clipQ ((r.y1 - pad.2) / scale) 0 (orig.1 : ℚ) <
        clipQ ((r.y2 - pad.2) / scale) 0 (orig.1 : ℚ) ∧
      d = ⟨intTrunc r.cls, cocoName (intTrunc r.cls), r.conf,
        (clipQ ((r.x1 - pad.1) / scale) 0 (orig.2 : ℚ) / (orig.2 : ℚ),
         clipQ ((r.y1 - pad.2) / scale) 0 (orig.1 : ℚ) / (orig.1 : ℚ),
         clipQ ((r.x2 - pad.1) / scale) 0 (orig.2 : ℚ) / (orig.2 : ℚ),
         clipQ ((r.y2 - pad.2) / scale) 0 (orig.1 : ℚ) / (orig.1 : ℚ))⟩ := by
  obtain ⟨r, hr, hf⟩ := List.mem_filterMap.1 hd
  refine ⟨r, hr, ?_⟩
  dsimp only at hf
  split at hf
  case isTrue h => exact absurd hf (by simp)
  case isFalse h1 =>
    split at hf
    case isTrue h => exact absurd hf (by simp)
    case isFalse h2 =>
      split at hf
      case isTrue h => exact absurd hf (by simp)
      case isFalse h3 =>
        have h2f : filterDrops cf (intTrunc r.cls) = false := by
          revert h2
          cases filterDrops cf (intTrunc r.cls) <;> simp
        push_neg at h3
        exact ⟨h1, h2f, h3.1, h3.2, (Option.some.inj hf).symm⟩

end Yolo11

/-- Claim C6: every `Detection` returned by inference — by the embedded-NMS
path `postprocess_with_nms` as well as by the plain `postprocess` path —
has a normalized bbox with `0 ≤ x1 < x2 ≤ 1` and `0 ≤ y1 < y2 ≤ 1`, for
every model output, scale, padding, thresholds and class filter, as long
as the original image has positive height and width. -/
theorem c6_bbox_normalized :
    (∀ (rows : List Yolo11.NmsRow) (scale : ℚ) (pad : ℚ × ℚ)
       (orig : ℕ × ℕ) (ct : ℚ) (cf : Option (List ℤ)),
       0 < orig.1 → 0 < orig.2 →
       ∀ d ∈ Yolo11.postprocessWithNms rows scale pad orig ct cf,
         Yolo11.detBboxOk d) ∧
    (∀ (sig : ℚ → ℚ) (rows : List Yolo11.PredRow) (scale : ℚ)
       (pad : ℚ × ℚ) (orig : ℕ × ℕ) (ct ni : ℚ) (cf : Option (List ℤ)),
       0 < orig.1 → 0 < orig.2 →
       ∀ d ∈ Yolo11.postprocess sig rows scale pad orig ct ni cf,
         Yolo11.detBboxOk d) := by
  constructor
  · intro rows scale pad orig ct cf hh hw d hd
    obtain ⟨r, _, _, _, hx, hy, hdeq⟩ :=
      Yolo11.mem_postprocessWithNms rows scale pad orig ct cf d hd
    have hw0 : (0 : ℚ) < (orig.2 : ℚ) := by exact_mod_cast hw
    have hh0 : (0 : ℚ) < (orig.1 : ℚ) := by exact_mod_cast hh
    subst hdeq
    refine ⟨?_, ?_, ?_, ?_, ?_, ?_⟩
    · exact div_nonneg (Yolo11.clipQ_lower _ _ _) hw0.le
    · exact div_lt_div_of_pos_right hx hw0
    · exact (div_le_one hw0).2 (Yolo11.clipQ_upper _ _ _ hw0.le)
    · exact div_nonneg (Yolo11.clipQ_lower _ _ _) hh0.le
    · exact div_lt_div_of_pos_right hy hh0
    · exact (div_le_one hh0).2 (Yolo11.clipQ_upper _ _ _ hh0.le)
  · intro sig rows scale pad orig ct ni cf hh hw d hd
    have hw0 : (0 : ℚ) < (orig.2 : ℚ) := by exact_mod_cast hw
    have hh0 : (0 : ℚ) < (orig.1 : ℚ) := by exact_mod_cast hh
    simp only [Yolo11.postprocess] at hd
    unfold Yolo11.finalizeDets at hd
    obtain ⟨c, hc, hdc⟩ := List.mem_map.1 hd
    have hcv := Yolo11.mem_perClassNms _ _ _ hc
    obtain ⟨hcb, hxlt, hylt⟩ := Yolo11.mem_validCands _ _ hcv
    obtain ⟨pre, _, hgeo, _⟩ :=
      Yolo11.mem_geomCands _ _ _ _ _ _ hcb
    have hb := Yolo11.toOrig_bounds pre.1 pad scale (orig.2 : ℚ)
      (orig.1 : ℚ) hw0.le hh0.le
    rw [← hgeo] at hb
    obtain ⟨⟨hx1a, hx1b⟩, ⟨hy1a, hy1b⟩, ⟨hx2a, hx2b⟩, ⟨hy2a, hy2b⟩⟩ := hb
    subst hdc
    have e1 : Yolo11.clipQ (c.xyxy.1 / (orig.2 : ℚ)) 0 1 =
        c.xyxy.1 / (orig.2 : ℚ) :=
      Yolo11.clipQ_id _ _ _ (div_nonneg hx1a hw0.le) ((div_le_one hw0).2 hx1b)
    have e2 : Yolo11.clipQ (c.xyxy.2.1 / (orig.1 : ℚ)) 0 1 =
        c.xyxy.2.1 / (orig.1 : ℚ) :=
      Yolo11.clipQ_id _ _ _ (div_nonneg hy1a hh0.le) ((div_le_one hh0).2 hy1b)
    have e3 : Yolo11.clipQ (c.xyxy.2.2.1 / (orig.2 : ℚ)) 0 1 =
        c.xyxy.2.2.1 / (orig.2 : ℚ) :=
      Yolo11.clipQ_id _ _ _ (div_nonneg hx2a hw0.le) ((div_le_one hw0).2 hx2b)
    have e4 : Yolo11.clipQ (c.xyxy.2.2.2 / (orig.1 : ℚ)) 0 1 =
        c.xyxy.2.2.2 / (orig.1 : ℚ) :=
      Yolo11.clipQ_id _ _ _ (div_nonneg hy2a hh0.le) ((div_le_one hh0).2 hy2b)
    refine ⟨?_, ?_, ?_, ?_, ?_, ?_⟩
    · exact Yolo11.clipQ_lower _ _ _
    · rw [show (Yolo11.Detection.mk c.cls (Yolo11.cocoName c.cls) c.conf
        _).bbox.1 = Yolo11.clipQ (c.xyxy.1 / (orig.2 : ℚ)) 0 1 from rfl,
        e1, e3]
      exact div_lt_div_of_pos_right hxlt hw0
    · exact Yolo11.clipQ_upper _ _ _ (by norm_num)
    · exact Yolo11.clipQ_lower _ _ _
    · rw [show (Yolo11.Detection.mk c.cls (Yolo11.cocoName c.cls) c.conf
        _).bbox.2.1 = Yolo11.clipQ (c.xyxy.2.1 / (orig.1 : ℚ)) 0 1 from rfl,
        e2, e4]
      exact div_lt_div_of_pos_right hylt hh0
    · exact Yolo11.clipQ_upper _ _ _ (by norm_num)

namespace Yolo11

/-- When some filter entry is in range, the sanitized filter is non-empty
and `effectiveFilter` keeps it (no global fallback). -/
theorem effectiveFilter_eq_some (filt : List ℤ) (nc : ℕ) (c0 : ℤ)
    (hc0 : c0 ∈ filt) (hlo : 0 ≤ c0) (hhi : c0 < (nc : ℤ)) :
    effectiveFilter (some filt) nc =
      some (filt.filter
        (fun c => decide (0 ≤ c) && decide (c < (nc : ℤ)))) ∧
    c0 ∈ filt.filter (fun c => decide (0 ≤ c) && decide (c < (nc : ℤ))) := by
  have hmem : c0 ∈ filt.filter
      (fun c => decide (0 ≤ c) && decide (c < (nc : ℤ))) := by
    refine List.mem_filter.2 ⟨hc0, ?_⟩
    rw [Bool.and_eq_true]
    exact ⟨decide_eq_true hlo, decide_eq_true hhi⟩
  have hlen : filt.length ≠ 0 := by
    intro h
    rw [List.length_eq_zero.1 h] at hc0
    exact List.not_mem_nil c0 hc0
  refine ⟨?_, hmem⟩
  simp only [effectiveFilter]
  rw [if_pos hlen, if_neg]
  intro hemp
  rw [List.isEmpty_iff.1 hemp] at hmem
  exact List.not_mem_nil c0 hmem

end Yolo11


/-- Claim C5 counterexample: with a single-class model output
(`num_classes = 1`) and the non-empty filter `[5]`, whose only entry is
out of range, `postprocess` does not merely drop the invalid entry — it
falls back to global class selection and returns a detection with
`class_id = 0`, which is outside the filter, so the sanitization widens
the returned set. -/
theorem c5_counterexample :
    (Yolo11.postprocess (fun v => v) [⟨(1/2, 1/2, 1, 1), [1], none⟩] 1
        (0, 0) (1, 1) (1/2) (1/2) (some [5])).map
      (fun d => d.class_id) = [0] ∧
    (0 : ℤ) ∉ ([5] : List ℤ) := by
  refine ⟨?_, by decide⟩
  have h1 : Yolo11.applySquash (fun v => v)
      [⟨(1/2, 1/2, 1, 1), [1], none⟩] =
      [⟨(1/2, 1/2, 1, 1), [1], none⟩] := by
    norm_num [Yolo11.applySquash, Yolo11.needSquashScores,
      Yolo11.needSquashObj]
  have h2 : Yolo11.effectiveFilter (some [5])
      (Yolo11.numClasses
        [(⟨(1/2, 1/2, 1, 1), [1], none⟩ : Yolo11.PredRow)]) = none := by
    norm_num [Yolo11.effectiveFilter, Yolo11.numClasses]
  have h3 : Yolo11.buildCands none [⟨(1/2, 1/2, 1, 1), [1], none⟩] =
      [((1/2, 1/2, 1, 1), (0 : ℤ), (1 : ℚ))] := by
    norm_num [Yolo11.buildCands, Yolo11.selectClass, Yolo11.argmaxIdx,
      Yolo11.argmaxAux]
  have h4 : ([((1/2, 1/2, 1, 1), (0 : ℤ), (1 : ℚ))] :
        List (Quad × ℤ × ℚ)).filter (fun c => decide ((1:ℚ)/2 ≤ c.2.2)) =
      [((1/2, 1/2, 1, 1), (0 : ℤ), (1 : ℚ))] := by
    norm_num
  have h5 : Yolo11.geomCands (0, 0) 1 1 1
      [((1/2, 1/2, 1, 1), (0 : ℤ), (1 : ℚ))] =
      [⟨(0, 0, 1, 1), 1, 0⟩] := by
    norm_num [Yolo11.geomCands, Yolo11.toOrig, Yolo11.clipQ]
  have h6 : Yolo11.validCands [(⟨(0, 0, 1, 1), 1, 0⟩ : Yolo11.Cand)] =
      [⟨(0, 0, 1, 1), 1, 0⟩] := by
    norm_num [Yolo11.validCands]
  have h7 : Yolo11.perClassNms (1/2) [(⟨(0, 0, 1, 1), 1, 0⟩ : Yolo11.Cand)] =
      [⟨(0, 0, 1, 1), 1, 0⟩] := by
    norm_num [Yolo11.perClassNms, Yolo11.uniqueSorted, Yolo11.nms,
      Yolo11.nmsRun, Yolo11.nmsIou, List.insertionSort, List.orderedInsert,
      List.dedup, List.pwFilter]
  have h8 : Yolo11.finalizeDets 1 1 [(⟨(0, 0, 1, 1), 1, 0⟩ : Yolo11.Cand)] =
      [⟨0, "person", 1, (0, 0, 1, 1)⟩] := by
    norm_num [Yolo11.finalizeDets, Yolo11.clipQ, Yolo11.cocoName,
      Yolo11.COCO_CLASSES]
  simp only [Yolo11.postprocess, Nat.cast_one]
  rw [h1, h2, h3, h4, h5, h6, h7, h8]
  rfl

/-- Claim C5 (amended): the embedded-NMS path enforces the filter for every
present non-empty filter; the plain `postprocess` path enforces it as soon
as at least one filter entry is in range for the model's class count (the
out-of-range entries are dropped).  When every entry is out of range,
`postprocess` instead falls back to unfiltered global selection — the
counterexample — so the "never widen" half of the original claim only
holds under this in-range proviso. -/
theorem c5_class_filter_amended :
    (∀ (rows : List Yolo11.NmsRow) (scale : ℚ) (pad : ℚ × ℚ)
       (orig : ℕ × ℕ) (ct : ℚ) (filt : List ℤ), filt ≠ [] →
       ∀ d ∈ Yolo11.postprocessWithNms rows scale pad orig ct (some filt),
         d.class_id ∈ filt) ∧
    (∀ (sig : ℚ → ℚ) (rows : List Yolo11.PredRow) (scale : ℚ)
       (pad : ℚ × ℚ) (orig : ℕ × ℕ) (ct ni : ℚ) (filt : List ℤ),
       (∃ c ∈ filt, 0 ≤ c ∧ c < (Yolo11.numClasses rows : ℤ)) →
       ∀ d ∈ Yolo11.postprocess sig rows scale pad orig ct ni (some filt),
         d.class_id ∈ filt) := by
  constructor
  · intro rows scale pad orig ct filt hne d hd
    obtain ⟨r, _, _, hdrop, _, _, hdeq⟩ :=
      Yolo11.mem_postprocessWithNms rows scale pad orig ct (some filt) d hd
    have hlen : filt.length ≠ 0 := fun h => hne (List.length_eq_zero.1 h)
    simp only [Yolo11.filterDrops] at hdrop
    rw [if_pos hlen] at hdrop
    have hmem := not_not.1 (of_decide_eq_false hdrop)
    rw [hdeq]
    exact hmem
  · intro sig rows scale pad orig ct ni filt hin d hd
    obtain ⟨c0, hc0, hlo, hhi⟩ := hin
    have hhi' : c0 <
        ((Yolo11.numClasses (Yolo11.applySquash sig rows) : ℕ) : ℤ) := by
      rw [Yolo11.numClasses_applySquash]
      exact hhi
    obtain ⟨hef, hc0al⟩ :=
      Yolo11.effectiveFilter_eq_some filt _ c0 hc0 hlo hhi'
    simp only [Yolo11.postprocess] at hd
    rw [hef] at hd
    unfold Yolo11.finalizeDets at hd
    obtain ⟨c, hc, hdc⟩ := List.mem_map.1 hd
    have hcv := Yolo11.mem_perClassNms _ _ _ hc
    obtain ⟨hcb, _, _⟩ := Yolo11.mem_validCands _ _ hcv
    obtain ⟨pre, hpre, _, hclseq⟩ := Yolo11.mem_geomCands _ _ _ _ _ _ hcb
    have hpre2 := (List.mem_filter.1 hpre).1
    obtain ⟨r, _, hrcls⟩ := Yolo11.mem_buildCands_cls _ _ _ hpre2
    have halne : filt.filter (fun c => decide (0 ≤ c) &&
        decide (c < ((Yolo11.numClasses (Yolo11.applySquash sig rows) : ℕ) :
          ℤ))) ≠ [] := by
      intro h
      rw [h] at hc0al
      exact List.not_mem_nil c0 hc0al
    have hsel := Yolo11.selectClass_mem _ halne r
    rw [← hrcls] at hsel
    have hcl : c.cls ∈ filt.filter (fun c => decide (0 ≤ c) &&
        decide (c < ((Yolo11.numClasses (Yolo11.applySquash sig rows) : ℕ) :
          ℤ))) := hclseq ▸ hsel
    have hfin : c.cls ∈ filt := (List.mem_filter.1 hcl).1
    rw [← hdc]
    exact hfin

/-- Evaluation of the embedded-NMS path on a unit box with the in-range
filter `[0]`: one detection of class 0. -/
theorem postprocessWithNms_eval_filter_zero :
    Yolo11.postprocessWithNms [⟨0, 0, 1, 1, 1, 0⟩] 1 (0, 0) (1, 1) (1/2)
      (some [0]) = [⟨0, "person", 1, (0, 0, 1, 1)⟩] := by
  norm_num [Yolo11.postprocessWithNms, Yolo11.filterDrops, Yolo11.intTrunc,
    Yolo11.clipQ, Yolo11.cocoName, Yolo11.COCO_CLASSES, List.filterMap_cons,
    max_def, min_def]

/-- Claim C5 witness: the amended filter guarantee at a concrete input —
with filter `[0]`, the returned detection's class is in the filter. -/
theorem c5_class_filter_amended_witness :
    (⟨0, "person", 1, (0, 0, 1, 1)⟩ : Yolo11.Detection).class_id ∈
      ([0] : List ℤ) :=
  c5_class_filter_amended.1 [⟨0, 0, 1, 1, 1, 0⟩] 1 (0, 0) (1, 1) (1/2)
    [0] (by decide) _
    (by rw [postprocessWithNms_eval_filter_zero]; exact List.mem_singleton.2 rfl)

/-- Evaluation of the embedded-NMS path on a unit box without a filter. -/
theorem postprocessWithNms_eval_plain :
    Yolo11.postprocessWithNms [⟨0, 0, 1, 1, 1, 0⟩] 1 (0, 0) (1, 1) (1/2)
      none = [⟨0, "person", 1, (0, 0, 1, 1)⟩] := by
  norm_num [Yolo11.postprocessWithNms, Yolo11.filterDrops, Yolo11.intTrunc,
    Yolo11.clipQ, Yolo11.cocoName, Yolo11.COCO_CLASSES, List.filterMap_cons,
    max_def, min_def]

/-- Claim C6 witness: the bbox invariant at a concrete inference output
(unit box on a 1×1 image). -/
theorem c6_bbox_normalized_witness :
    Yolo11.detBboxOk ⟨0, "person", 1, (0, 0, 1, 1)⟩ :=
  c6_bbox_normalized.1 [⟨0, 0, 1, 1, 1, 0⟩] 1 (0, 0) (1, 1) (1/2) none
    (by norm_num) (by norm_num) _
    (by rw [postprocessWithNms_eval_plain]; exact List.mem_singleton.2 rfl)


namespace WorkerV1

theorem autoTune_inv (s : WState) (lat : ℚ)
    (h : s.inflight < s.window_size) :
    ((autoTune s lat).1).inflight ≤ ((autoTune s lat).1).window_size := by
  simp only [autoTune]
  repeat' split
  all_goals first
  | omega
  | (dsimp only; omega)

theorem handleFrame_inv (s : WState) (f : Wire.FrameMsg)
    (h : s.inflight ≤ s.window_size) :
    ((handleFrame s f).1).inflight ≤ ((handleFrame s f).1).window_size := by
  simp only [handleFrame]
  repeat' split
  all_goals first
  | omega
  | (dsimp only; omega)
  | (dsimp only
     apply autoTune_inv
     dsimp only
     omega)

theorem handleInit_inv (s : WState) (i : Wire.InitMsg)
    (h : s.inflight ≤ s.window_size) :
    ((handleInit s i).1).inflight ≤ ((handleInit s i).1).window_size := by
  simp only [handleInit]
  repeat' split
  all_goals first
  | omega
  | (dsimp only; omega)

theorem handleEnvelope_inv (s : WState) (e : Wire.Envelope)
    (h : s.inflight ≤ s.window_size) :
    ((handleEnvelope s e).1).inflight ≤
      ((handleEnvelope s e).1).window_size := by
  simp only [handleEnvelope, handleEnd, handleHeartbeat]
  repeat' split
  all_goals first
  | omega
  | (dsimp only; omega)
  | (apply handleInit_inv
     exact h)
  | (apply handleFrame_inv
     exact h)

theorem step_inv (s : WState) (ev : NetEvent)
    (h : s.inflight ≤ s.window_size) :
    ((step s ev).1).inflight ≤ ((step s ev).1).window_size := by
  cases ev with
  | disconnect => exact h
  | msg length parsed =>
    simp only [step]
    split
    · exact h
    · cases parsed with
      | none => exact h
      | some e =>
        exact handleEnvelope_inv { s with rx_count := s.rx_count + 1 } e h

theorem handleFrame_bad_sequence (s : WState) (f : Wire.FrameMsg)
    (h : s.initialized = false) :
    handleFrame s f = (s, [.error .BAD_SEQUENCE]) := by
  simp only [handleFrame]
  rw [if_pos (by simp [h])]

theorem handleFrame_backpressure (s : WState) (f : Wire.FrameMsg)
    (h1 : s.initialized = true) (h2 : s.window_size ≤ s.inflight) :
    handleFrame s f = (s, [.error .BACKPRESSURE_TIMEOUT]) := by
  simp only [handleFrame]
  rw [if_neg (by simp [h1]), if_pos h2]

theorem handleEnvelope_frame (s : WState) (sid : String) (f : Wire.FrameMsg) :
    handleEnvelope s ⟨1, .MT_FRAME, sid, .req (.reqFrame f)⟩ =
      handleFrame
        (if s.stream_id = "" then { s with stream_id := sid } else s) f := by
  simp only [handleEnvelope, expectedMsgType, Wire.Content.isReq]
  rw [if_neg (by decide), if_neg (by decide)]
  split
  · simp
  · simp

theorem step_frame (s : WState) (sid : String) (f : Wire.FrameMsg) (n : ℕ)
    (hn : ¬(n = 0 ∨ 52428800 < n)) :
    step s (.msg n (some ⟨1, .MT_FRAME, sid, .req (.reqFrame f)⟩)) =
      (let r := handleFrame
        (if s.stream_id = "" then
          { s with rx_count := s.rx_count + 1, stream_id := sid }
         else { s with rx_count := s.rx_count + 1 }) f
       ({ r.1 with tx_count := r.1.tx_count + r.2.length }, r.2)) := by
  simp only [step]
  rw [if_neg hn]
  rw [handleEnvelope_frame]

theorem handleEnvelope_end (s : WState) (sid : String) :
    handleEnvelope s ⟨1, .MT_END, sid, .req .reqEnd⟩ =
      handleEnd
        (if s.stream_id = "" then { s with stream_id := sid } else s) := by
  simp only [handleEnvelope, expectedMsgType, Wire.Content.isReq]
  rw [if_neg (by decide), if_neg (by decide)]
  split
  · simp
  · simp

theorem handleEnvelope_unsetReq (s : WState) (sid : String) :
    handleEnvelope s ⟨1, .MT_UNKNOWN, sid, .req .reqUnset⟩ =
      ((if s.stream_id = "" then { s with stream_id := sid } else s), []) := by
  simp only [handleEnvelope, expectedMsgType, Wire.Content.isReq]
  rw [if_neg (by decide), if_neg (by decide)]
  split
  · simp
  · simp

theorem handleEnvelope_nonreq (s : WState) (sid : String) (c : Wire.Content)
    (mt : Wire.MsgType) (hinit : s.initialized = false)
    (hreq : c.isReq = false)
    (hmt : expectedMsgType ⟨1, mt, sid, c⟩ = mt) :
    handleEnvelope s ⟨1, mt, sid, c⟩ =
      ((if s.stream_id = "" then { s with stream_id := sid } else s),
       [.error .BAD_SEQUENCE]) := by
  simp only [handleEnvelope]
  rw [if_neg (by decide), if_neg (by simp [hmt])]
  split
  · rw [if_pos ⟨by simp [hinit], by simp [hreq]⟩]
  · rw [if_pos ⟨by simp [hinit], by simp [hreq]⟩]

end WorkerV1

/-- C1: at every reachable state of the per-connection step relation the
in-flight count never exceeds the window size, and a frame arriving at a
full window (no credits) elicits exactly a `BACKPRESSURE_TIMEOUT` error
response. -/
theorem c1_window_backpressure :
    (∀ s : WorkerV1.WState, WorkerV1.Reachable s →
      s.inflight ≤ s.window_size) ∧
    (∀ (s : WorkerV1.WState) (sid : String) (f : Wire.FrameMsg) (n : ℕ),
      WorkerV1.Reachable s → s.closed = false → s.initialized = true →
      s.window_size ≤ s.inflight → ¬(n = 0 ∨ 52428800 < n) →
      (WorkerV1.step s
        (.msg n (some ⟨1, .MT_FRAME, sid, .req (.reqFrame f)⟩))).2 =
        [.error .BACKPRESSURE_TIMEOUT]) := by
  constructor
  · intro s hs
    induction hs with
    | base => exact Nat.zero_le _
    | next ev hr hcl ih => exact WorkerV1.step_inv _ ev ih
  · intro s sid f n _ _ hinit hwin hn
    rw [WorkerV1.step_frame s sid f n hn]
    dsimp only
    split
    · rw [WorkerV1.handleFrame_backpressure
        { s with stream_id := sid, rx_count := s.rx_count + 1 } f hinit hwin]
    · rw [WorkerV1.handleFrame_backpressure
        { s with rx_count := s.rx_count + 1 } f hinit hwin]

/-- C1 witness: after an `Init` and four raw frames whose declared plane
sizes do not sum to the data length (each takes a credit that the error
return never releases) the window is exhausted, and a fifth frame gets
`BACKPRESSURE_TIMEOUT`. -/
theorem c1_window_backpressure_witness :
    WorkerV1.Reachable WorkerV1.sBp ∧
    WorkerV1.sBp.closed = false ∧
    WorkerV1.sBp.initialized = true ∧
    WorkerV1.sBp.window_size ≤ WorkerV1.sBp.inflight ∧
    ¬((5:ℕ) = 0 ∨ 52428800 < 5) ∧
    (WorkerV1.step WorkerV1.sBp
      (.msg 5 (some ⟨1, .MT_FRAME, "s",
        .req (.reqFrame WorkerV1.badFrame)⟩))).2 =
      [.error .BACKPRESSURE_TIMEOUT] := by
  have h0 : WorkerV1.Reachable WorkerV1.initState := .base
  have h1 := WorkerV1.Reachable.next WorkerV1.evInit h0 rfl
  have h2 := WorkerV1.Reachable.next WorkerV1.evBad h1 rfl
  have h3 := WorkerV1.Reachable.next WorkerV1.evBad h2 rfl
  have h4 := WorkerV1.Reachable.next WorkerV1.evBad h3 rfl
  have h5 := WorkerV1.Reachable.next WorkerV1.evBad h4 rfl
  have hre : WorkerV1.Reachable WorkerV1.sBp := h5
  exact ⟨hre, rfl, rfl, by decide, by decide,
    c1_window_backpressure.2 WorkerV1.sBp "s" WorkerV1.badFrame 5 hre rfl rfl
      (by decide) (by decide)⟩

/-- C3 counterexample: a raw frame as the very first message of a fresh
connection gets the `BAD_SEQUENCE` error response, but the connection is
NOT closed — the handler keeps processing further messages, contradicting
the claimed "and closes the connection". -/
theorem c3_counterexample :
    (WorkerV1.step WorkerV1.initState
      (.msg 5 (some ⟨1, .MT_FRAME, "s",
        .req (.reqFrame WorkerV1.badFrame)⟩))).2 =
      [.error .BAD_SEQUENCE] ∧
    (WorkerV1.step WorkerV1.initState
      (.msg 5 (some ⟨1, .MT_FRAME, "s",
        .req (.reqFrame WorkerV1.badFrame)⟩))).1.closed = false :=
  ⟨rfl, rfl⟩

/-- C3 (amended): for every content shape of a first message that is not
`Request.Init` (the handler still uninitialized, version and msg_type
valid): a `Frame`, a heartbeat, a response payload or an empty envelope
elicits exactly a `BAD_SEQUENCE` error and leaves the connection open;
`Request.End` closes the connection without emitting any error; a request
with no oneof field set elicits nothing and stays open.  In no case does
`BAD_SEQUENCE` come with a close. -/
theorem c3_first_message_amended (s : WorkerV1.WState) (sid : String)
    (c : Wire.Content) (mt : Wire.MsgType) (n : ℕ)
    (hinit : s.initialized = false)
    (hn : ¬(n = 0 ∨ 52428800 < n))
    (hmt : WorkerV1.expectedMsgType ⟨1, mt, sid, c⟩ = mt)
    (hni : ∀ i, c ≠ .req (.reqInit i)) :
    match c with
    | .req (.reqFrame _) =>
        (WorkerV1.step s (.msg n (some ⟨1, mt, sid, c⟩))).2 =
          [.error .BAD_SEQUENCE] ∧
        (WorkerV1.step s (.msg n (some ⟨1, mt, sid, c⟩))).1.closed = s.closed
    | .req .reqEnd =>
        (WorkerV1.step s (.msg n (some ⟨1, mt, sid, c⟩))).2 = [] ∧
        (WorkerV1.step s (.msg n (some ⟨1, mt, sid, c⟩))).1.closed = true
    | .req .reqUnset =>
        (WorkerV1.step s (.msg n (some ⟨1, mt, sid, c⟩))).2 = [] ∧
        (WorkerV1.step s (.msg n (some ⟨1, mt, sid, c⟩))).1.closed = s.closed
    | _ =>
        (WorkerV1.step s (.msg n (some ⟨1, mt, sid, c⟩))).2 =
          [.error .BAD_SEQUENCE] ∧
        (WorkerV1.step s (.msg n (some ⟨1, mt, sid, c⟩))).1.closed = s.closed
    := by
  cases c with
  | req r =>
    cases r with
    | reqInit i => exact absurd rfl (hni i)
    | reqFrame f =>
      have hmt' : mt = .MT_FRAME := hmt.symm
      subst hmt'
      rw [WorkerV1.step_frame s sid f n hn]
      dsimp only
      split
      · rw [WorkerV1.handleFrame_bad_sequence
          { s with stream_id := sid, rx_count := s.rx_count + 1 } f hinit]
        exact ⟨rfl, rfl⟩
      · rw [WorkerV1.handleFrame_bad_sequence
          { s with rx_count := s.rx_count + 1 } f hinit]
        exact ⟨rfl, rfl⟩
    | reqEnd =>
      have hmt' : mt = .MT_END := hmt.symm
      subst hmt'
      simp only [WorkerV1.step]
      rw [if_neg hn]
      rw [WorkerV1.handleEnvelope_end]
      exact ⟨rfl, rfl⟩
    | reqUnset =>
      have hmt' : mt = .MT_UNKNOWN := hmt.symm
      subst hmt'
      simp only [WorkerV1.step]
      rw [if_neg hn]
      rw [WorkerV1.handleEnvelope_unsetReq]
      refine ⟨rfl, ?_⟩
      split
      · rfl
      · rfl
  | res k =>
    simp only [WorkerV1.step]
    rw [if_neg hn]
    rw [WorkerV1.handleEnvelope_nonreq
      { s with rx_count := s.rx_count + 1 } sid (.res k) mt hinit rfl hmt]
    refine ⟨rfl, ?_⟩
    split
    · rfl
    · rfl
  | hb =>
    simp only [WorkerV1.step]
    rw [if_neg hn]
    rw [WorkerV1.handleEnvelope_nonreq
      { s with rx_count := s.rx_count + 1 } sid .hb mt hinit rfl hmt]
    refine ⟨rfl, ?_⟩
    split
    · rfl
    · rfl
  | unset =>
    simp only [WorkerV1.step]
    rw [if_neg hn]
    rw [WorkerV1.handleEnvelope_nonreq
      { s with rx_count := s.rx_count + 1 } sid .unset mt hinit rfl hmt]
    refine ⟨rfl, ?_⟩
    split
    · rfl
    · rfl

/-- C3 witness for the amended statement at the fresh connection state:
a raw frame first (`BAD_SEQUENCE`, open), an `End` first (no response,
closed), and a heartbeat first (`BAD_SEQUENCE`, open). -/
theorem c3_first_message_amended_witness :
    ((WorkerV1.step WorkerV1.initState
        (.msg 5 (some ⟨1, .MT_FRAME, "x",
          .req (.reqFrame WorkerV1.badFrame)⟩))).2 =
        [.error .BAD_SEQUENCE] ∧
      (WorkerV1.step WorkerV1.initState
        (.msg 5 (some ⟨1, .MT_FRAME, "x",
          .req (.reqFrame WorkerV1.badFrame)⟩))).1.closed =
        WorkerV1.initState.closed) ∧
    ((WorkerV1.step WorkerV1.initState
        (.msg 5 (some ⟨1, .MT_END, "x", .req .reqEnd⟩))).2 = [] ∧
      (WorkerV1.step WorkerV1.initState
        (.msg 5 (some ⟨1, .MT_END, "x", .req .reqEnd⟩))).1.closed = true) ∧
    ((WorkerV1.step WorkerV1.initState
        (.msg 5 (some ⟨1, .MT_HEARTBEAT, "x", .hb⟩))).2 =
        [.error .BAD_SEQUENCE] ∧
      (WorkerV1.step WorkerV1.initState
        (.msg 5 (some ⟨1, .MT_HEARTBEAT, "x", .hb⟩))).1.closed =
        WorkerV1.initState.closed) :=
  ⟨c3_first_message_amended WorkerV1.initState "x"
      (.req (.reqFrame WorkerV1.badFrame)) .MT_FRAME 5 rfl (by decide) rfl
      (by intro i h; injection h with h2; exact Wire.ReqMsg.noConfusion h2),
   c3_first_message_amended WorkerV1.initState "x" (.req .reqEnd) .MT_END 5
      rfl (by decide) rfl
      (by intro i h; injection h with h2; exact Wire.ReqMsg.noConfusion h2),
   c3_first_message_amended WorkerV1.initState "x" .hb .MT_HEARTBEAT 5
      rfl (by decide) rfl
      (by intro i h; exact Wire.Content.noConfusion h)⟩
